import Mathlib

/-!
RFML reader (`rainforest/rfml.go`): embedding and properties.

A shallow embedding of `RFMLReader.ReadAll` and of the standard-library string
functions it calls (`strings.HasPrefix`, `strings.Contains`, `strings.SplitN`,
`strings.Split`, `strings.TrimSpace`, `strconv.Atoi`).

Modelling conventions:
* a Go `string` holding valid UTF-8 is a list of code points (`Str`); every byte
  the reader inspects (`#`, `!`, `:`, `,`, digits, signs) is ASCII, so splitting
  by code point and by byte agree;
* the input of `ReadAll` is the list of physical lines of the file in order,
  each the text between two line feeds; an unterminated last line is a line as
  well (the scanner treats it alike, except that a last line of exactly
  `MaxScanTokenSize` bytes is still yielded when the underlying reader reports
  end of file together with its last bytes);
* `bufio.Scanner` with its default split function and buffer is part of the
  model (`scanLines`): it yields the lines in order with one trailing carriage
  return dropped and stops for good at the first line of `MaxScanTokenSize`
  bytes or more; `ReadAll` never reads `scanner.Err()`, so the stop is silent;
* `int` is the 64-bit Go `int`; `lineNum` is a natural number;
* `ReadAll` returns the Go pair `(*RFTest, error)`; `none` is the `nil` error;
* the `fmt.Println(line)` echo writes to standard output only and is not part
  of the returned pair, so it is left out.
-/

namespace Rainforest

/-- A Go string, as its sequence of code points. -/
abbrev Str := List Char

/-! ## Standard-library functions used by the reader -/

/-- Go `unicode.IsSpace`: the Latin-1 spaces `\t \n \v \f \r`, space, U+0085,
U+00A0, and the code points with the Unicode White_Space property. -/
def isSpace (c : Char) : Bool :=
  let n := c.toNat
  n == 0x09 || n == 0x0A || n == 0x0B || n == 0x0C || n == 0x0D || n == 0x20 ||
  n == 0x85 || n == 0xA0 || n == 0x1680 || (0x2000 ≤ n && n ≤ 0x200A) ||
  n == 0x2028 || n == 0x2029 || n == 0x202F || n == 0x205F || n == 0x3000

/-- Go `strings.TrimSpace`: all leading and trailing white space removed. -/
def TrimSpace (s : Str) : Str :=
  (s.dropWhile isSpace).rdropWhile isSpace

/-- Go `strings.HasPrefix`. -/
def HasPrefix (s pre : Str) : Bool :=
  pre.isPrefixOf s

/-- Go `strings.Index` for a one-byte separator: position of its first
occurrence, `none` for Go's `-1`. -/
def Index : Str → Char → Option Nat
  | [], _ => none
  | c :: cs, sep => if c = sep then some 0 else (Index cs sep).map (· + 1)

/-- Go `strings.Contains` for a one-byte separator: `Index(s, sep) >= 0`. -/
def Contains (s : Str) (sep : Char) : Bool :=
  (Index s sep).isSome

/-- Go `strings.Count` for a one-byte separator. -/
def Count (s : Str) (sep : Char) : Nat :=
  s.count sep

/-- The loop of Go `strings.genSplit` with `n` cuts still allowed: cut at the
first separator while one is found and cuts remain, the rest is the last piece. -/
def genSplit (sep : Char) : Nat → Str → List Str
  | 0, s => [s]
  | n + 1, s =>
    match Index s sep with
    | none => [s]
    | some m => s.take m :: genSplit sep n (s.drop (m + 1))

/-- Go `strings.Split(s, sep)`: `genSplit` with `Count(s, sep) + 1` pieces. -/
def Split (s : Str) (sep : Char) : List Str :=
  genSplit sep (Count s sep) s

/-- Go `strings.SplitN(s, sep, 2)`: at most two pieces, cut at the first separator. -/
def SplitN2 (s : Str) (sep : Char) : List Str :=
  genSplit sep 1 s

/-- Bit size of Go `int` (`strconv.IntSize`). -/
def intSize : Nat := 64

/-- Failure kinds of `strconv` (`ErrSyntax`, `ErrRange`). -/
inductive NumError where
  | ErrSyntax
  | ErrRange
  deriving DecidableEq, Repr

/-- The digit loop of Go `strconv.ParseUint(s, 10, 0)` on `uint64` arithmetic:
`n` is the value so far; a byte outside `0..9` is a syntax error, an overflow of
`n*10` (detected by the cutoff) or of `n*10 + d` is a range error. -/
def parseUintLoop : Str → Nat → Except NumError Nat
  | [], n => .ok n
  | c :: cs, n =>
    if c.toNat < 48 ∨ 57 < c.toNat then .error .ErrSyntax
    else
      let d := c.toNat - 48
      let cutoff := (2 ^ 64 - 1) / 10 + 1
      let maxVal := 2 ^ intSize - 1
      if n ≥ cutoff then .error .ErrRange
      else
        let n10 := (n * 10) % 2 ^ 64
        let n1 := (n10 + d) % 2 ^ 64
        if n1 < n10 ∨ n1 > maxVal then .error .ErrRange
        else parseUintLoop cs n1

/-- Go `strconv.ParseUint(s, 10, 0)`. -/
def ParseUint (s : Str) : Except NumError Nat :=
  if s = [] then .error .ErrSyntax else parseUintLoop s 0

/-- Go `strconv.ParseInt(s, 10, 0)`: leading sign picked off, magnitude by
`ParseUint`, then the signed range check against `1 << (intSize-1)`. -/
def ParseInt (s : Str) : Except NumError Int :=
  if s = [] then .error .ErrSyntax
  else
    let neg := s.head? = some '-'
    let s1 := if s.head? = some '+' ∨ s.head? = some '-' then s.drop 1 else s
    match ParseUint s1 with
    | .error e => .error e
    | .ok un =>
      let cutoff := 2 ^ (intSize - 1)
      if ¬ neg ∧ un ≥ cutoff then .error .ErrRange
      else if neg ∧ un > cutoff then .error .ErrRange
      else if neg then .ok (-(un : Int)) else .ok (un : Int)

/-- Go `strconv.Atoi(s)`, which is `ParseInt(s, 10, 0)` converted to `int`. -/
def Atoi (s : Str) : Except NumError Int :=
  ParseInt s

/-! ## Data model (`rfml.go`, lines 11-53) -/

/-- An entry of `RFTest.Steps` (`[]interface{}`): an `RFTestStep` or an
`RFEmbeddedTest`. -/
inductive Step where
  | RFTestStep (Action Response : Str) (Redirect : Bool)
  | RFEmbeddedTest (RFMLID : Str) (Redirect : Bool)
  deriving DecidableEq, Repr

/-- The Go struct `RFTest`; a `nil` slice is the empty list. -/
structure RFTest where
  RFMLID : Str := []
  Title : Str := []
  StartURI : Str := []
  SiteID : Int := 0
  Description : Str := []
  Tags : List Str := []
  BrowsersMap : Str := []
  Browsers : List Str := []
  Steps : List Step := []
  deriving DecidableEq, Repr

/-- The Go struct `parseError`. -/
structure parseError where
  line : Nat
  reason : String
  deriving DecidableEq, Repr

/-! ## The reader (`rfml.go`, lines 65-125) -/

/-- The body of the scanning loop of `ReadAll` for one line: `lineNum` is the
already incremented line counter, `t` the test being filled. The result is the
updated test, or the parse error with which `ReadAll` returns. -/
def readLine (lineNum : Nat) (t : RFTest) (line : Str) : Except parseError RFTest :=
  if HasPrefix line "#!".toList then
    .ok { t with RFMLID := line.drop 2 }
  else if HasPrefix line "#".toList then
    let content := line.drop 1
    if Contains content ':' then
      let split := SplitN2 content ':'
      let key := TrimSpace (split.getD 0 [])
      let value := TrimSpace (split.getD 1 [])
      if key = "title".toList then
        .ok { t with Title := value }
      else if key = "start_uri".toList then
        .ok { t with StartURI := value }
      else if key = "site_id".toList then
        match Atoi value with
        | .error _ => .error ⟨lineNum, "Site ID must be a valid integer."⟩
        | .ok siteID => .ok { t with SiteID := siteID }
      else if key = "tags".toList then
        .ok { t with Tags := (Split value ',').map TrimSpace }
      else if key = "browsers".toList then
        .ok { t with Browsers := (Split value ',').map TrimSpace }
      else if key = "redirect".toList then
        .ok t
      else
        .ok { t with Description := t.Description ++ content ++ "\n".toList }
    else
      .ok { t with Description := t.Description ++ content ++ "\n".toList }
  else
    .ok t

/-- The scanning loop of `ReadAll`: `lineNum` lines have been read so far and
`t` is the test filled from them. On a parse error the loop returns a fresh
empty `RFTest` together with the error. -/
def readLoop : List Str → Nat → RFTest → RFTest × Option parseError
  | [], _, t => (t, none)
  | line :: rest, lineNum, t =>
    match readLine (lineNum + 1) t line with
    | .error e => ({}, some e)
    | .ok t1 => readLoop rest (lineNum + 1) t1

/-- The scanning loop of `ReadAll` run from the start (`lineNum := 0`, a fresh
`RFTest`) over the lines that `scanner.Text()` yields in turn. -/
def parseTokens (tokens : List Str) : RFTest × Option parseError :=
  readLoop tokens 0 {}

/-- Go `bufio.MaxScanTokenSize`: the size of the scanner's largest buffer. -/
def MaxScanTokenSize : Nat := 64 * 1024

/-- Go `len(s)`: the number of bytes of the UTF-8 encoding of the string. -/
def byteLen (s : Str) : Nat :=
  (s.map Char.utf8Size).sum

/-- Go `bufio.dropCR`: one trailing carriage return removed. -/
def dropCR (data : Str) : Str :=
  if data.getLast? = some '\r' then data.dropLast else data

/-- The values of `scanner.Text()` over the successful calls of
`scanner.Scan()` (`bufio.ScanLines` on a buffer of at most `MaxScanTokenSize`
bytes): each physical line in turn without its trailing carriage return; at
the first line whose bytes fill the whole buffer without a line feed, `Scan`
sets `ErrTooLong` and returns false, and no later line is yielded. -/
def scanLines : List Str → List Str
  | [] => []
  | raw :: rest =>
    if MaxScanTokenSize ≤ byteLen raw then [] else dropCR raw :: scanLines rest

/-- `RFMLReader.ReadAll` on the physical lines of the input: the loop runs while
`scanner.Scan()` succeeds, and `scanner.Err()` is not read afterwards. -/
def ReadAll (lines : List Str) : RFTest × Option parseError :=
  parseTokens (scanLines lines)

/-- The `Redirect` field of an entry of `RFTest.Steps`, present in both
`RFTestStep` and `RFEmbeddedTest`. -/
def stepRedirect : Step → Bool
  | .RFTestStep _ _ r => r
  | .RFEmbeddedTest _ r => r

/-! ## Uploadable-file detector

`RFTest.HasUploadableFiles` is exercised by `TestHasUploadableFiles` in
`tests_test.go`, but its body is not part of the sources at hand; it is
modelled from section 4.4 of the specification. -/

/-- Modelled from the spec: the fixed set of upload-triggering function names
of the Uploadable-File Detector (the detector's source is missing; the names
are the download and screenshot operations of section 4.4 as written in
`TestHasUploadableFiles`). -/
def uploadFunctionNames : List Str :=
  ["file.download".toList, "file.screenshot".toList]

/-- Modelled from the spec: the missing call-syntax matcher of the detector,
at one position. The text starts with an upload-trigger call: one of the
function names, immediately followed by the opening delimiter `(`, an argument
with at least one non-white-space character, and the closing delimiter `)`; the
argument is the text up to the first closing delimiter. -/
def startsWithUploadCall (text : Str) : Bool :=
  uploadFunctionNames.any (fun name =>
    (name ++ ['(']).isPrefixOf text &&
      (text.drop (name.length + 1)).contains ')' &&
      ((text.drop (name.length + 1)).takeWhile (fun c => c != ')')).any (fun c => !isSpace c))

/-- Modelled from the spec: the missing flat textual scan of the detector: the
action text contains an upload-trigger call at some position. -/
def hasUploadCall (action : Str) : Bool :=
  action.tails.any startsWithUploadCall

/-- Modelled from the spec: the missing per-step rule of the detector: only an
Action Step counts, by its action text; an Embedded-Test Reference never does. -/
def stepHasUploadableFiles : Step → Bool
  | .RFTestStep action _ _ => hasUploadCall action
  | .RFEmbeddedTest _ _ => false

/-- Modelled from the spec: the missing method `RFTest.HasUploadableFiles`:
true on the first step satisfying the rule, false if no step does (also when
Steps is empty). -/
def HasUploadableFiles (t : RFTest) : Bool :=
  t.Steps.any stepHasUploadableFiles

/-! ## Vocabulary of the specification

The predicates below follow the wording of the specification; the theorems
relate them to the reader above. -/

/-- The line starts with the two-character identity marker `#!`. -/
def specIsIdentityLine (line : Str) : Bool :=
  line.head? == some '#' && line.tail.head? == some '!'

/-- The line starts with `#` but not with `#!`. -/
def specIsHashLine (line : Str) : Bool :=
  line.head? == some '#' && !(line.tail.head? == some '!')

/-- The text between the marker and the first colon of a line. -/
def specKeyText (line : Str) : Str :=
  line.tail.takeWhile (fun c => c != ':')

/-- The text after the first colon of a line. -/
def specValueText (line : Str) : Str :=
  (line.dropWhile (fun c => c != ':')).tail

/-- The line is a directive with the given key: it starts with `#` but not
`#!`, contains a colon, and the text between the marker and the first colon
trims to exactly `key`. -/
def specIsDirective (key : Str) (line : Str) : Bool :=
  specIsHashLine line && line.contains ':' && TrimSpace (specKeyText line) == key

/-- The directive keys recognized by the reader. -/
def specRecognizedKeys : List Str :=
  ["title".toList, "start_uri".toList, "site_id".toList, "tags".toList,
   "browsers".toList, "redirect".toList]

/-- The line is a description line: it starts with `#` but not `#!` and either
contains no colon or its trimmed key is not a recognized one. -/
def specIsDescriptionLine (line : Str) : Bool :=
  specIsHashLine line &&
    (!(line.contains ':') || !(specRecognizedKeys.contains (TrimSpace (specKeyText line))))

/-- A decimal digit. -/
def specIsDigit (c : Char) : Bool :=
  '0' ≤ c && c ≤ '9'

/-- The text with one optional leading sign removed. -/
def specStripSign : Str → Str
  | '+' :: r => r
  | '-' :: r => r
  | s => s

/-- Value of a sequence of decimal digits. -/
def specDecimalValue (ds : Str) : Nat :=
  ds.foldl (fun n c => n * 10 + (c.toNat - '0'.toNat)) 0

/-- Value of an optionally signed sequence of decimal digits. -/
def specIntValue (s : Str) : Int :=
  if s.head? = some '-' then -(specDecimalValue (specStripSign s) : Int)
  else (specDecimalValue (specStripSign s) : Int)

/-- A valid integer: an optional sign followed by one or more decimal digits,
with value in the range of `int`; the empty string is not valid. -/
def specValidInteger (s : Str) : Bool :=
  !(specStripSign s).isEmpty && (specStripSign s).all specIsDigit &&
    decide (-(2 : Int) ^ 63 ≤ specIntValue s) && decide (specIntValue s ≤ 2 ^ 63 - 1)

/-- A site_id directive with a bad value: a `site_id` directive line whose
trimmed text after the first colon is not a valid integer. -/
def specBadSiteIdLine (line : Str) : Bool :=
  specIsDirective "site_id".toList line && !(specValidInteger (TrimSpace (specValueText line)))

/-- The decimal digits of `n`, most significant first, pushed in front of
`acc`: the least significant digit is produced first, and `fuel` bounds the
number of digits. -/
def specDigitsAux : Nat → Nat → Str → Str
  | 0, _, acc => acc
  | fuel + 1, n, acc =>
    if n / 10 = 0 then Char.ofNat ('0'.toNat + n % 10) :: acc
    else specDigitsAux fuel (n / 10) (Char.ofNat ('0'.toNat + n % 10) :: acc)

/-- The decimal rendering of a natural number (`0` is rendered "0"). -/
def specNatDecimal (n : Nat) : Str :=
  specDigitsAux (n + 1) n []

/-- The decimal rendering of an integer: a minus sign for a negative number,
followed by the digits of its magnitude. -/
def specItoa (n : Int) : Str :=
  if n < 0 then '-' :: specNatDecimal n.natAbs else specNatDecimal n.natAbs

/-- The text begins with a white-space character. -/
def specBeginsWithSpace (x : Str) : Bool :=
  match x.head? with
  | some c => isSpace c
  | none => false

/-- The text ends with a white-space character. -/
def specEndsWithSpace (x : Str) : Bool :=
  match x.getLast? with
  | some c => isSpace c
  | none => false

/-- The reason text of the site id parse error. -/
def siteIdReason : String := "Site ID must be a valid integer."

/-- The update the loop body applies on a line that does not stop the loop:
each field is either kept or set from the line, according to the kind of the
line (`readLine_spec` proves that `readLine` performs exactly this update). -/
def lineUpdate (t : RFTest) (l : Str) : RFTest :=
  { RFMLID := if specIsIdentityLine l then l.drop 2 else t.RFMLID
    Title := if specIsDirective "title".toList l then TrimSpace (specValueText l)
      else t.Title
    StartURI := if specIsDirective "start_uri".toList l then TrimSpace (specValueText l)
      else t.StartURI
    SiteID := if specIsDirective "site_id".toList l
      then specIntValue (TrimSpace (specValueText l)) else t.SiteID
    Description := if specIsDescriptionLine l
      then t.Description ++ l.drop 1 ++ "\n".toList else t.Description
    Tags := if specIsDirective "tags".toList l
      then (Split (TrimSpace (specValueText l)) ',').map TrimSpace else t.Tags
    BrowsersMap := t.BrowsersMap
    Browsers := if specIsDirective "browsers".toList l
      then (Split (TrimSpace (specValueText l)) ',').map TrimSpace else t.Browsers
    Steps := t.Steps }

/-! ## Inputs that fill the scanner's buffer -/

/-- A text of 65536 letters `x`, as many bytes as the scanner's buffer holds. -/
def longText : Str := List.replicate 65536 'x'

/-- A run of 65536 spaces. -/
def longBlank : Str := List.replicate 65536 ' '

/-! ## Lemmas on the string functions -/

theorem isSpace_colon : isSpace ':' = false := by decide

theorem isSpace_comma : isSpace ',' = false := by decide

theorem Index_eq_none_iff (s : Str) (sep : Char) : Index s sep = none ↔ sep ∉ s := by
  induction s with
  | nil => simp [Index]
  | cons c cs ih =>
    by_cases h : c = sep
    · simp [Index, h]
    · simp [Index, h, ih, Ne.symm h]

theorem Contains_iff (s : Str) (sep : Char) : Contains s sep = true ↔ sep ∈ s := by
  unfold Contains
  rw [← not_iff_not, ← Index_eq_none_iff]
  cases Index s sep <;> simp

theorem Index_some_split (s : Str) (sep : Char) (m : Nat) (h : Index s sep = some m) :
    s.take m = s.takeWhile (fun c => c != sep) ∧
    s.drop (m + 1) = (s.dropWhile (fun c => c != sep)).tail := by
  induction s generalizing m with
  | nil => simp [Index] at h
  | cons c cs ih =>
    by_cases hc : c = sep
    · simp [Index, hc] at h
      subst h
      simp [hc]
    · cases hi : Index cs sep with
      | none => simp [Index, hc, hi] at h
      | some k =>
        simp [Index, hc, hi] at h
        subst h
        have := ih k hi
        have hne : (c != sep) = true := by simpa using hc
        simp [List.takeWhile, List.dropWhile, hne, this.1, this.2]

theorem SplitN2_of_mem (s : Str) (sep : Char) (h : sep ∈ s) :
    SplitN2 s sep = [s.takeWhile (fun c => c != sep), (s.dropWhile (fun c => c != sep)).tail] := by
  unfold SplitN2 genSplit
  cases hi : Index s sep with
  | none => exact absurd h ((Index_eq_none_iff s sep).1 hi)
  | some m =>
    have := Index_some_split s sep m hi
    simp [genSplit, this.1, this.2]

theorem genSplit_cons_eq (sep : Char) (n : Nat) (cs : Str) :
    genSplit sep (n + 1) (sep :: cs) = [] :: genSplit sep n cs := by
  simp [genSplit, Index]

theorem genSplit_cons_ne (sep c : Char) (n : Nat) (cs : Str) (h : c ≠ sep) :
    genSplit sep n (c :: cs) = (genSplit sep n cs).modifyHead (List.cons c) := by
  cases n with
  | zero => simp [genSplit]
  | succ n =>
    cases hi : Index cs sep with
    | none => simp [genSplit, Index, h, hi]
    | some m => simp [genSplit, Index, h, hi]

/-- Go `strings.Split` on a one-byte separator cuts at every separator: it is
the list-level `splitOn`. -/
theorem Split_eq_splitOn (s : Str) (sep : Char) : Split s sep = s.splitOn sep := by
  unfold Split Count List.splitOn
  induction s with
  | nil => simp [genSplit]
  | cons c cs ih =>
    by_cases h : c = sep
    · subst h
      simp [genSplit_cons_eq, ih]
    · have hb : (c == sep) = false := by simpa using h
      rw [List.splitOnP_cons, hb, List.count_cons, hb]
      simp [genSplit_cons_ne sep c _ cs h, ih]

theorem length_genSplit (sep : Char) (s : Str) :
    (genSplit sep (s.count sep) s).length = s.count sep + 1 := by
  induction s with
  | nil => simp [genSplit]
  | cons c cs ih =>
    by_cases h : c = sep
    · subst h
      simp [genSplit_cons_eq, ih]
    · have hb : (c == sep) = false := by simpa using h
      rw [List.count_cons, hb, genSplit_cons_ne sep c _ cs h]
      simpa using ih

theorem length_Split (s : Str) (sep : Char) : (Split s sep).length = s.count sep + 1 :=
  length_genSplit sep s

theorem TrimSpace_head (s : Str) (c : Char) (h : (TrimSpace s).head? = some c) :
    isSpace c = false := by
  unfold TrimSpace at h
  obtain ⟨r, hr⟩ : ∃ r, List.rdropWhile isSpace (s.dropWhile isSpace) = c :: r := by
    cases hx : List.rdropWhile isSpace (s.dropWhile isSpace) with
    | nil => simp [hx] at h
    | cons a r =>
      rw [hx] at h
      simp at h
      exact ⟨r, by rw [h]⟩
  obtain ⟨u, hu⟩ := List.rdropWhile_prefix isSpace (l := s.dropWhile isSpace)
  rw [hr] at hu
  have := List.head?_dropWhile_not isSpace s
  rw [← hu] at this
  simpa using this

theorem TrimSpace_getLast (s : Str) (c : Char) (h : (TrimSpace s).getLast? = some c) :
    isSpace c = false := by
  unfold TrimSpace at h
  have hne : List.rdropWhile isSpace (s.dropWhile isSpace) ≠ [] := by
    intro hx
    simp [hx] at h
  have := List.rdropWhile_last_not isSpace (s.dropWhile isSpace) hne
  rw [List.getLast?_eq_getLast _ hne] at h
  injection h with h
  rw [← h]
  simpa using this

theorem TrimSpace_cons_of_not_space (c : Char) (r : Str) (h : isSpace c = false) :
    (TrimSpace (c :: r)).head? = some c := by
  unfold TrimSpace
  have hd : (c :: r).dropWhile isSpace = c :: r := by simp [List.dropWhile, h]
  rw [hd]
  obtain ⟨u, hu⟩ := List.rdropWhile_prefix isSpace (l := c :: r)
  cases hx : List.rdropWhile isSpace (c :: r) with
  | nil =>
    have := (List.rdropWhile_eq_nil_iff (p := isSpace) (l := c :: r)).1 hx c (List.mem_cons_self _ _)
    rw [h] at this
    cases this
  | cons a r2 =>
    rw [hx] at hu
    injection hu with h1 _
    simp [h1]

theorem count_dropWhile_isSpace (s : Str) (a : Char) (ha : isSpace a = false) :
    (s.dropWhile isSpace).count a = s.count a := by
  induction s with
  | nil => rfl
  | cons c cs ih =>
    by_cases hc : isSpace c = true
    · have hne : (c == a) = false := by
        have : c ≠ a := fun e => by rw [e, ha] at hc; cases hc
        simpa using this
      simp [List.dropWhile, hc, ih, List.count_cons, hne]
    · simp [List.dropWhile, hc]

theorem count_TrimSpace (s : Str) (a : Char) (ha : isSpace a = false) :
    (TrimSpace s).count a = s.count a := by
  unfold TrimSpace List.rdropWhile
  rw [List.count_reverse, count_dropWhile_isSpace _ a ha, List.count_reverse,
    count_dropWhile_isSpace _ a ha]

theorem takeWhile_ne_append (k v : Str) (sep : Char) (h : sep ∉ k) :
    (k ++ sep :: v).takeWhile (fun c => c != sep) = k := by
  induction k with
  | nil => simp [List.takeWhile]
  | cons c cs ih =>
    have hc : c ≠ sep := fun e => h (by simp [e])
    have hb : (c != sep) = true := by simpa using hc
    simp [List.takeWhile, hb, ih (fun hm => h (List.mem_cons_of_mem _ hm))]

theorem dropWhile_ne_append (k v : Str) (sep : Char) (h : sep ∉ k) :
    (k ++ sep :: v).dropWhile (fun c => c != sep) = sep :: v := by
  induction k with
  | nil => simp [List.dropWhile]
  | cons c cs ih =>
    have hc : c ≠ sep := fun e => h (by simp [e])
    have hb : (c != sep) = true := by simpa using hc
    simp [List.dropWhile, hb, ih (fun hm => h (List.mem_cons_of_mem _ hm))]

/-! ## `strconv.Atoi` against the specification of a valid integer -/

theorem specIsDigit_iff (c : Char) :
    specIsDigit c = true ↔ 48 ≤ c.toNat ∧ c.toNat ≤ 57 := by
  simp only [specIsDigit, Bool.and_eq_true, decide_eq_true_eq]
  exact Iff.rfl

theorem foldl_digits_le (ds : Str) (n : Nat) :
    n ≤ ds.foldl (fun n c => n * 10 + (c.toNat - '0'.toNat)) n := by
  induction ds generalizing n with
  | nil => simp
  | cons c cs ih =>
    simp only [List.foldl_cons]
    exact le_trans (by omega) (ih _)

theorem parseUintLoop_ok_iff (cs : Str) (n v : Nat) (hn : n < 2 ^ 64) :
    parseUintLoop cs n = .ok v ↔
      cs.all specIsDigit = true ∧
      cs.foldl (fun n c => n * 10 + (c.toNat - '0'.toNat)) n < 2 ^ 64 ∧
      v = cs.foldl (fun n c => n * 10 + (c.toNat - '0'.toNat)) n := by
  induction cs generalizing n with
  | nil =>
    simp only [parseUintLoop, List.all_nil, List.foldl_nil, true_and]
    constructor
    · intro h
      injection h with h
      exact ⟨hn, h.symm⟩
    · rintro ⟨_, rfl⟩
      rfl
  | cons c cs ih =>
    have hz : '0'.toNat = 48 := rfl
    have hmono := foldl_digits_le cs (n * 10 + (c.toNat - '0'.toNat))
    simp only [List.all_cons, Bool.and_eq_true, List.foldl_cons, specIsDigit_iff]
    rw [hz] at hmono ⊢
    unfold parseUintLoop
    by_cases hd : c.toNat < 48 ∨ 57 < c.toNat
    · simp only [hd, if_true]
      constructor
      · intro h
        cases h
      · rintro ⟨⟨h1, _⟩, _⟩
        omega
    · simp only [hd, if_false, intSize]
      norm_num at hn hmono ⊢
      by_cases hc : 1844674407370955162 ≤ n
      · simp only [hc, if_true]
        constructor
        · intro h
          cases h
        · rintro ⟨_, h2, _⟩
          omega
      · simp only [hc, if_false]
        have h10 : n * 10 % 18446744073709551616 = n * 10 := Nat.mod_eq_of_lt (by omega)
        rw [h10]
        by_cases ho : n * 10 + (c.toNat - 48) < 18446744073709551616
        · rw [Nat.mod_eq_of_lt ho]
          have hno : ¬ (n * 10 + (c.toNat - 48) < n * 10 ∨
              18446744073709551615 < n * 10 + (c.toNat - 48)) := by omega
          simp only [hno, if_false]
          rw [ih _ (by norm_num; exact ho)]
          have hdg : 48 ≤ c.toNat ∧ c.toNat ≤ 57 := by omega
          constructor
          · rintro ⟨a, b, e⟩
            exact ⟨⟨hdg, by simpa using a⟩, b, e⟩
          · rintro ⟨⟨_, a⟩, b, e⟩
            exact ⟨by simpa using a, b, e⟩
        · have hyes : (n * 10 + (c.toNat - 48)) % 18446744073709551616 < n * 10 ∨
              18446744073709551615 < (n * 10 + (c.toNat - 48)) % 18446744073709551616 := by
            omega
          simp only [hyes, if_true]
          constructor
          · intro h
            cases h
          · rintro ⟨_, h2, _⟩
            omega

theorem ParseUint_ok_iff (ds : Str) (v : Nat) :
    ParseUint ds = .ok v ↔
      ds ≠ [] ∧ ds.all specIsDigit = true ∧ specDecimalValue ds < 2 ^ 64 ∧
      v = specDecimalValue ds := by
  unfold ParseUint specDecimalValue
  by_cases h : ds = []
  · simp [h]
  · simp only [h, if_false, ne_eq, not_false_eq_true, true_and]
    exact parseUintLoop_ok_iff ds 0 v (by norm_num)

theorem ParseInt_stripSign (s : Str) :
    (if s.head? = some '+' ∨ s.head? = some '-' then s.drop 1 else s) = specStripSign s := by
  cases s with
  | nil => rfl
  | cons c r =>
    by_cases h1 : c = '+'
    · subst h1
      rfl
    · by_cases h2 : c = '-'
      · subst h2
        rfl
      · simp only [List.head?_cons, Option.some.injEq, h1, h2, or_self, if_false]
        unfold specStripSign
        split
        · rename_i heq
          injection heq with heq _
          exact absurd heq h1
        · rename_i heq
          injection heq with heq _
          exact absurd heq h2
        · rfl

theorem Atoi_ok_iff (s : Str) (v : Int) :
    Atoi s = .ok v ↔ specValidInteger s = true ∧ v = specIntValue s := by
  unfold Atoi ParseInt
  by_cases hs : s = []
  · subst hs
    simp [specValidInteger, specStripSign]
  · simp only [hs, if_false, ParseInt_stripSign, intSize]
    unfold specValidInteger specIntValue
    cases hp : ParseUint (specStripSign s) with
    | error e =>
      simp only [Bool.and_eq_true, Bool.not_eq_true', decide_eq_true_eq, List.isEmpty_eq_false]
      constructor
      · intro h
        cases h
      · rintro ⟨⟨⟨⟨h1, h2⟩, h3⟩, h4⟩, _⟩
        have hval : specDecimalValue (specStripSign s) < 2 ^ 64 := by
          by_cases hneg : s.head? = some '-'
          · simp only [hneg, if_true] at h3
            norm_num at h3 ⊢
            omega
          · simp only [hneg, if_false] at h4
            norm_num at h4 ⊢
            omega
        have := (ParseUint_ok_iff (specStripSign s) _).2 ⟨by simpa using h1, h2, hval, rfl⟩
        rw [hp] at this
        cases this
    | ok un =>
      obtain ⟨h1, h2, h3, rfl⟩ := (ParseUint_ok_iff _ _).1 hp
      have h1b : (specStripSign s).isEmpty = false := by simpa using h1
      simp only [h1b, h2, Bool.not_false, Bool.true_and, Bool.and_eq_true, decide_eq_true_eq]
      by_cases hneg : s.head? = some '-'
      · simp only [hneg, if_true, not_true_eq_false, false_and, if_false, true_and]
        norm_num at h3 ⊢
        by_cases hr : 9223372036854775808 < specDecimalValue (specStripSign s)
        · simp only [hr, if_true]
          constructor
          · intro h
            cases h
          · rintro ⟨⟨h, _⟩, _⟩
            omega
        · simp only [hr, if_false]
          constructor
          · intro h
            injection h with h
            exact ⟨⟨by omega, by omega⟩, h.symm⟩
          · rintro ⟨_, rfl⟩
            rfl
      · simp only [hneg, if_false, not_false_eq_true, true_and, false_and]
        norm_num at h3 ⊢
        by_cases hr : 9223372036854775808 ≤ specDecimalValue (specStripSign s)
        · simp only [hr, if_true]
          constructor
          · intro h
            cases h
          · rintro ⟨⟨_, h⟩, _⟩
            omega
        · simp only [hr, if_false]
          constructor
          · intro h
            injection h with h
            exact ⟨⟨by omega, by omega⟩, h.symm⟩
          · rintro ⟨_, rfl⟩
            rfl

theorem Atoi_error_iff (s : Str) :
    (∃ e, Atoi s = .error e) ↔ specValidInteger s = false := by
  cases h : Atoi s with
  | error e =>
    simp only [Except.error.injEq, exists_eq', true_iff]
    by_contra hv
    have := (Atoi_ok_iff s (specIntValue s)).2 ⟨by simpa using hv, rfl⟩
    rw [h] at this
    cases this
  | ok v =>
    have := ((Atoi_ok_iff s v).1 h).1
    simp [this]

/-! ## One line of the reader, in the vocabulary of the specification -/

theorem beq_comm_char (a b : Char) : (a == b) = (b == a) := by
  by_cases h : a = b
  · simp [h]
  · simp [h, Ne.symm h]

theorem HasPrefix_identity (l : Str) : HasPrefix l "#!".toList = specIsIdentityLine l := by
  rcases l with _ | ⟨c, _ | ⟨d, r⟩⟩
  · simp [HasPrefix, specIsIdentityLine, String.toList, List.isPrefixOf]
  · simp [HasPrefix, specIsIdentityLine, String.toList, List.isPrefixOf]
  · simp only [HasPrefix, specIsIdentityLine, String.toList, List.isPrefixOf, List.head?_cons,
      List.tail_cons, Bool.and_true]
    rw [beq_comm_char '#' c, beq_comm_char '!' d]
    simp

theorem HasPrefix_hash (l : Str) : HasPrefix l "#".toList = (l.head? == some '#') := by
  rcases l with _ | ⟨c, r⟩
  · simp [HasPrefix, String.toList, List.isPrefixOf]
  · simp only [HasPrefix, String.toList, List.isPrefixOf, List.head?_cons, Bool.and_true]
    rw [beq_comm_char '#' c]
    simp

theorem hashLine_split (content : Str) (h : ':' ∈ content) :
    SplitN2 content ':' = [specKeyText ('#' :: content), specValueText ('#' :: content)] := by
  rw [SplitN2_of_mem content ':' h]
  simp [specKeyText, specValueText, List.dropWhile]

/-- What one pass of the loop body does, case by case: a bad site_id directive
stops with the parse error of the current line; every other line updates exactly
the fields named by its kind. -/
theorem readLine_spec (n : Nat) (t : RFTest) (l : Str) :
    readLine n t l =
      if specBadSiteIdLine l then .error ⟨n, siteIdReason⟩ else .ok (lineUpdate t l) := by
  unfold readLine lineUpdate
  rw [HasPrefix_identity, HasPrefix_hash]
  by_cases hid : specIsIdentityLine l = true
  · have hh : specIsHashLine l = false := by
      simp only [specIsIdentityLine, Bool.and_eq_true] at hid
      simp only [specIsHashLine, hid.1, hid.2]
      rfl
    simp [hid, hh, specBadSiteIdLine, specIsDirective, specIsDescriptionLine]
  · by_cases hh : specIsHashLine l = true
    · obtain ⟨content, rfl⟩ : ∃ content, l = '#' :: content := by
        rcases l with _ | ⟨c, r⟩
        · simp [specIsHashLine] at hh
        · simp only [specIsHashLine, List.head?_cons, Bool.and_eq_true, beq_iff_eq,
            Option.some.injEq] at hh
          exact ⟨r, by rw [hh.1]⟩
      by_cases hcol : ':' ∈ content
      · have hc1 : Contains content ':' = true := (Contains_iff _ _).2 hcol
        have hc2 : List.contains ('#' :: content) ':' = true := by simp [hcol]
        simp only [hid, hh, hc1, hc2, List.drop_one, List.tail_cons, hashLine_split content hcol,
          List.getD_cons_zero, List.getD_cons_succ, specBadSiteIdLine, specIsDirective,
          specIsDescriptionLine, Bool.true_and, Bool.not_true, Bool.false_or, List.head?_cons,
          beq_self_eq_true, if_true, Bool.false_eq_true, if_false]
        generalize TrimSpace (specKeyText ('#' :: content)) = key
        generalize TrimSpace (specValueText ('#' :: content)) = value
        by_cases k1 : key = "title".toList
        · subst k1
          simp +decide [specRecognizedKeys]
        by_cases k2 : key = "start_uri".toList
        · subst k2
          simp +decide [specRecognizedKeys]
        by_cases k3 : key = "site_id".toList
        · subst k3
          cases ha : Atoi value with
          | error e =>
            have hv := (Atoi_error_iff value).1 ⟨e, ha⟩
            simp +decide [hv, siteIdReason]
          | ok v =>
            obtain ⟨hv, rfl⟩ := (Atoi_ok_iff value v).1 ha
            simp +decide [hv, specRecognizedKeys]
        by_cases k4 : key = "tags".toList
        · subst k4
          simp +decide [specRecognizedKeys]
        by_cases k5 : key = "browsers".toList
        · subst k5
          simp +decide [specRecognizedKeys]
        by_cases k6 : key = "redirect".toList
        · subst k6
          simp +decide [specRecognizedKeys]
        · simp at k1 k2 k3 k4 k5 k6
          have hk : key ∉ specRecognizedKeys := by
            simp [specRecognizedKeys, k1, k2, k3, k4, k5, k6]
          simp [k1, k2, k3, k4, k5, k6, hk]
      · have hc1 : Contains content ':' = false := by
          rw [← Bool.not_eq_true, Contains_iff]
          exact hcol
        have hc2 : List.contains ('#' :: content) ':' = false := by simp [hcol]
        simp [hid, hh, hc1, hc2, hcol, specBadSiteIdLine, specIsDirective, specIsDescriptionLine]
    · have hh2 : (l.head? == some '#') = false := by
        simp only [specIsIdentityLine, specIsHashLine] at hid hh
        cases h1 : (l.head? == some '#') <;> cases h2 : (l.tail.head? == some '!') <;> simp_all
      simp [hid, hh, hh2, specBadSiteIdLine, specIsDirective, specIsDescriptionLine]

/-! ## The loop -/

theorem readLoop_ok (ls : List Str) (n : Nat) (t : RFTest)
    (h : ∀ l ∈ ls, specBadSiteIdLine l = false) :
    readLoop ls n t = (ls.foldl lineUpdate t, none) := by
  induction ls generalizing n t with
  | nil => rfl
  | cons l ls ih =>
    have hl : specBadSiteIdLine l = false := h l (List.mem_cons_self _ _)
    simp only [readLoop, readLine_spec, hl, Bool.false_eq_true, if_false, List.foldl_cons]
    exact ih _ _ (fun x hx => h x (List.mem_cons_of_mem _ hx))

theorem readLoop_first_bad (pre post : List Str) (bad : Str) (n : Nat) (t : RFTest)
    (hpre : ∀ l ∈ pre, specBadSiteIdLine l = false) (hbad : specBadSiteIdLine bad = true) :
    readLoop (pre ++ bad :: post) n t = ({}, some ⟨n + pre.length + 1, siteIdReason⟩) := by
  induction pre generalizing n t with
  | nil => simp [readLoop, readLine_spec, hbad]
  | cons l ls ih =>
    have hl : specBadSiteIdLine l = false := hpre l (List.mem_cons_self _ _)
    have hstep : readLoop ((l :: ls) ++ bad :: post) n t =
        readLoop (ls ++ bad :: post) (n + 1) (lineUpdate t l) := by
      show readLoop (l :: (ls ++ bad :: post)) n t = _
      simp only [readLoop, readLine_spec, hl, Bool.false_eq_true, if_false]
    rw [hstep, ih _ _ (fun x hx => hpre x (List.mem_cons_of_mem _ hx))]
    have : n + 1 + ls.length + 1 = n + (l :: ls).length + 1 := by
      simp only [List.length_cons]
      omega
    rw [this]

theorem exists_first_bad (ls : List Str) (h : ∃ l ∈ ls, specBadSiteIdLine l = true) :
    ∃ pre bad post, ls = pre ++ bad :: post ∧ (∀ l ∈ pre, specBadSiteIdLine l = false) ∧
      specBadSiteIdLine bad = true := by
  induction ls with
  | nil => simp at h
  | cons l ls ih =>
    by_cases hl : specBadSiteIdLine l = true
    · exact ⟨[], l, ls, rfl, by simp, hl⟩
    · have h2 : ∃ x ∈ ls, specBadSiteIdLine x = true := by
        obtain ⟨x, hx, hb⟩ := h
        rcases List.mem_cons.1 hx with rfl | hx
        · exact absurd hb hl
        · exact ⟨x, hx, hb⟩
      obtain ⟨pre, bad, post, rfl, hp, hb⟩ := ih h2
      refine ⟨l :: pre, bad, post, rfl, ?_, hb⟩
      intro x hx
      rcases List.mem_cons.1 hx with rfl | hx
      · simpa using hl
      · exact hp x hx

theorem readLoop_error_iff (ls : List Str) (n : Nat) (t : RFTest) :
    (readLoop ls n t).2 ≠ none ↔ ∃ l ∈ ls, specBadSiteIdLine l = true := by
  constructor
  · intro h
    by_contra hno
    have hall : ∀ l ∈ ls, specBadSiteIdLine l = false := by
      intro l hl
      by_contra hb
      exact hno ⟨l, hl, by simpa using hb⟩
    rw [readLoop_ok ls n t hall] at h
    exact h rfl
  · intro h
    obtain ⟨pre, bad, post, rfl, hp, hb⟩ := exists_first_bad ls h
    rw [readLoop_first_bad pre post bad n t hp hb]
    simp

theorem parseTokens_ok_iff (lines : List Str) :
    (parseTokens lines).2 = none ↔ ∀ l ∈ lines, specBadSiteIdLine l = false := by
  have := readLoop_error_iff lines 0 {}
  unfold parseTokens
  constructor
  · intro h l hl
    by_contra hb
    exact (this.2 ⟨l, hl, by simpa using hb⟩) h
  · intro h
    rw [readLoop_ok lines 0 {} h]

theorem parseTokens_of_ok (lines : List Str) (h : (parseTokens lines).2 = none) :
    parseTokens lines = (lines.foldl lineUpdate {}, none) :=
  readLoop_ok lines 0 {} ((parseTokens_ok_iff lines).1 h)

/-! ## Fields of the document after the loop -/

theorem foldl_lineUpdate_keep {α : Type} (f : RFTest → α) (p : Str → Bool) (g : Str → α)
    (hstep : ∀ t l, f (lineUpdate t l) = if p l = true then g l else f t)
    (ls : List Str) (t : RFTest) (h : ∀ l ∈ ls, p l = false) :
    f (ls.foldl lineUpdate t) = f t := by
  induction ls generalizing t with
  | nil => rfl
  | cons l ls ih =>
    rw [List.foldl_cons, ih _ (fun x hx => h x (List.mem_cons_of_mem _ hx)), hstep,
      h l (List.mem_cons_self _ _)]
    simp

theorem foldl_lineUpdate_last {α : Type} (f : RFTest → α) (p : Str → Bool) (g : Str → α)
    (hstep : ∀ t l, f (lineUpdate t l) = if p l = true then g l else f t)
    (pre post : List Str) (l : Str) (t : RFTest) (hl : p l = true)
    (hpost : ∀ x ∈ post, p x = false) :
    f ((pre ++ l :: post).foldl lineUpdate t) = g l := by
  rw [List.foldl_append, List.foldl_cons, foldl_lineUpdate_keep f p g hstep post _ hpost, hstep,
    hl]
  simp

theorem foldl_lineUpdate_Description (ls : List Str) (t : RFTest) :
    (ls.foldl lineUpdate t).Description =
      t.Description ++
        ((ls.filter specIsDescriptionLine).map (fun l => l.drop 1 ++ "\n".toList)).flatten := by
  induction ls generalizing t with
  | nil => simp
  | cons l ls ih =>
    rw [List.foldl_cons, ih]
    by_cases hd : specIsDescriptionLine l = true
    · simp [lineUpdate, hd, List.filter_cons]
    · simp [lineUpdate, hd, List.filter_cons]

theorem foldl_lineUpdate_Steps (ls : List Str) (t : RFTest) :
    (ls.foldl lineUpdate t).Steps = t.Steps := by
  induction ls generalizing t with
  | nil => rfl
  | cons l ls ih =>
    rw [List.foldl_cons, ih]
    rfl

theorem parseTokens_Steps (lines : List Str) : (parseTokens lines).1.Steps = [] := by
  by_cases h : (parseTokens lines).2 = none
  · rw [parseTokens_of_ok lines h]
    exact foldl_lineUpdate_Steps lines {}
  · unfold parseTokens at h ⊢
    obtain ⟨pre, bad, post, rfl, hp, hb⟩ := exists_first_bad lines ((readLoop_error_iff _ _ _).1 h)
    rw [readLoop_first_bad pre post bad 0 {} hp hb]

/-- A line `#` + `k` + `:` + `v`, with no colon in `k` and `k` not starting with
`!`, is a directive with key `TrimSpace k`, and the text after its first colon
is `v`. -/
theorem directive_line (k v : Str) (hk : ':' ∉ k) (hb : k.head? ≠ some '!') :
    specIsDirective (TrimSpace k) ('#' :: (k ++ ':' :: v)) = true ∧
      specValueText ('#' :: (k ++ ':' :: v)) = v ∧
      specIsIdentityLine ('#' :: (k ++ ':' :: v)) = false := by
  have hhead : (k ++ ':' :: v).head? ≠ some '!' := by
    cases k with
    | nil => simp
    | cons c r => simpa using hb
  have hh : ((k ++ ':' :: v).head? == some '!') = false := by simpa using hhead
  refine ⟨?_, ?_, ?_⟩
  · simp only [specIsDirective, specIsHashLine, specKeyText, List.head?_cons, List.tail_cons,
      beq_self_eq_true, hh, Bool.not_false, Bool.and_self, Bool.true_and,
      takeWhile_ne_append k v ':' hk]
    simp
  · have : ('#' :: (k ++ ':' :: v)).dropWhile (fun c => c != ':') = ':' :: v := by
      rw [List.dropWhile_cons]
      simp [dropWhile_ne_append k v ':' hk]
    simp [specValueText, this]
  · simp only [specIsIdentityLine, List.head?_cons, List.tail_cons, hh, Bool.and_false]

theorem head_ne_bang_of_TrimSpace (k key : Str) (c : Char) (h : TrimSpace k = key)
    (hc : key.head? = some c) (hne : c ≠ '!') : k.head? ≠ some '!' := by
  intro hk
  cases k with
  | nil => simp at hk
  | cons a r =>
    simp at hk
    subst hk
    have := TrimSpace_cons_of_not_space '!' r (by decide)
    rw [h, hc] at this
    injection this with this
    exact hne this

/-! ## Error behaviour of `parseTokens` -/

/-- On the lines the scanner yields:
`parseTokens` returns an error if and only if some input line is a site_id
directive with a bad value, that is, the line starts with `#` but not `#!`,
contains a colon, the text between the marker and the first colon trims to
exactly `site_id`, and the trimmed text after the first colon is not a valid
integer. No line of any other kind causes an error. -/
theorem tokens_error_iff_bad_site_id (lines : List Str) :
    (parseTokens lines).2 ≠ none ↔
      ∃ l ∈ lines, specIsHashLine l = true ∧ ':' ∈ l ∧
        TrimSpace (specKeyText l) = "site_id".toList ∧
        specValidInteger (TrimSpace (specValueText l)) = false := by
  unfold parseTokens
  rw [readLoop_error_iff]
  simp only [specBadSiteIdLine, specIsDirective, Bool.and_eq_true, beq_iff_eq,
    Bool.not_eq_true', List.contains_iff_exists_mem_beq, exists_eq_right', and_assoc]

/-- On the lines the scanner yields:
when the first site_id directive with a non-integer value is on line
`n` (here `n = pre.length + 1`, every physical line counted), `parseTokens` fails
with the parse error of line `n` and reason "Site ID must be a valid integer.",
and the result is the same whatever lines follow line `n`. -/
theorem tokens_first_bad_site_id_line (pre post post2 : List Str) (bad : Str)
    (hpre : ∀ l ∈ pre, specBadSiteIdLine l = false)
    (hdir : specIsDirective "site_id".toList bad = true)
    (hval : specValidInteger (TrimSpace (specValueText bad)) = false) :
    (parseTokens (pre ++ bad :: post)).2 =
        some ⟨pre.length + 1, "Site ID must be a valid integer."⟩ ∧
      parseTokens (pre ++ bad :: post) = parseTokens (pre ++ bad :: post2) := by
  have hbad : specBadSiteIdLine bad = true := by
    simp only [specBadSiteIdLine, hdir, hval, Bool.not_false, Bool.and_self]
  unfold parseTokens
  rw [readLoop_first_bad pre post bad 0 {} hpre hbad,
    readLoop_first_bad pre post2 bad 0 {} hpre hbad]
  simp [siteIdReason]

/-- Example on the lines the scanner yields:
`#site_id: abc` on line 3 gives line number 3. -/
theorem tokens_first_bad_site_id_line_example :
    (∀ l ∈ ["#!my-test-id".toList, "".toList], specBadSiteIdLine l = false) ∧
    specIsDirective "site_id".toList "#site_id: abc".toList = true ∧
    specValidInteger (TrimSpace (specValueText "#site_id: abc".toList)) = false ∧
    (parseTokens (["#!my-test-id".toList, "".toList] ++
        "#site_id: abc".toList :: ["#title: x".toList, "#site_id: zz".toList])).2 =
      some ⟨3, "Site ID must be a valid integer."⟩ :=
  ⟨by decide, by decide, by decide,
    (tokens_first_bad_site_id_line ["#!my-test-id".toList, "".toList]
      ["#title: x".toList, "#site_id: zz".toList] [] "#site_id: abc".toList
      (by decide) (by decide) (by decide)).1⟩

theorem parseTokens_empty_of_error (lines : List Str) (herr : (parseTokens lines).2 ≠ none) :
    (parseTokens lines).1 = {} := by
  unfold parseTokens at herr ⊢
  obtain ⟨pre, bad, post, rfl, hp, hb⟩ := exists_first_bad lines ((readLoop_error_iff _ _ _).1 herr)
  rw [readLoop_first_bad pre post bad 0 {} hp hb]

/-- On the lines the scanner yields:
whenever `parseTokens` reports a parse error, the document returned with
it is the empty document: identity, title, start URI and description empty,
site id 0, tags, browsers and steps empty. -/
theorem tokens_error_returns_empty_document (lines : List Str)
    (herr : (parseTokens lines).2 ≠ none) :
    (parseTokens lines).1 =
      { RFMLID := [], Title := [], StartURI := [], SiteID := 0, Description := [],
        Tags := [], BrowsersMap := [], Browsers := [], Steps := [] } := by
  unfold parseTokens at herr ⊢
  obtain ⟨pre, bad, post, rfl, hp, hb⟩ := exists_first_bad lines ((readLoop_error_iff _ _ _).1 herr)
  rw [readLoop_first_bad pre post bad 0 {} hp hb]

/-- Example on the lines the scanner yields:
identity, title, tags and description lines before a bad
site_id line leave nothing in the returned document. -/
theorem tokens_error_returns_empty_document_example :
    (parseTokens ["#!my-test-id".toList, "#title: T".toList, "#tags: a, b".toList,
        "# some text".toList, "#site_id: abc".toList]).2 ≠ none ∧
    (parseTokens ["#!my-test-id".toList, "#title: T".toList, "#tags: a, b".toList,
        "# some text".toList, "#site_id: abc".toList]).1 =
      { RFMLID := [], Title := [], StartURI := [], SiteID := 0, Description := [],
        Tags := [], BrowsersMap := [], Browsers := [], Steps := [] } :=
  ⟨by decide, tokens_error_returns_empty_document _ (by decide)⟩

/-! ## Description and identity -/

/-- On the lines the scanner yields:
for every input that parses successfully, Description is the
concatenation, in encounter order, of (content + newline) over exactly the lines
that start with `#` but not `#!` and either contain no colon or have a trimmed
key that is not one of title, start_uri, site_id, tags, browsers, redirect;
content is the line without its single leading `#`, otherwise verbatim. -/
theorem tokens_description_accumulates (lines : List Str) (hok : (parseTokens lines).2 = none) :
    (parseTokens lines).1.Description =
      ((lines.filter specIsDescriptionLine).map (fun l => l.drop 1 ++ "\n".toList)).flatten := by
  rw [parseTokens_of_ok lines hok]
  simpa using foldl_lineUpdate_Description lines {}

/-- Example on the lines the scanner yields:
`#hello` then `#world` gives "hello\nworld\n"; a recognized
directive and an un-prefixed line in between add nothing, an unrecognized key
is kept verbatim. -/
theorem tokens_description_accumulates_example :
    (parseTokens ["#hello".toList, "#title: t".toList, "step".toList, "#world".toList,
        "# note : x ".toList]).2 = none ∧
    (parseTokens ["#hello".toList, "#title: t".toList, "step".toList, "#world".toList,
        "# note : x ".toList]).1.Description = "hello\nworld\n note : x \n".toList :=
  ⟨by decide, (tokens_description_accumulates _ (by decide)).trans (by decide)⟩

/-- On the lines the scanner yields:
for every string `s`, an input whose only identity line is `#!`
followed by `s` parses to a document whose RFMLID is exactly `s`, with no
trimming and no interpretation of colons or `#` inside `s`. -/
theorem tokens_identity_verbatim (pre post : List Str) (s : Str)
    (_hpre : ∀ l ∈ pre, specIsIdentityLine l = false)
    (hpost : ∀ l ∈ post, specIsIdentityLine l = false)
    (hok : (parseTokens (pre ++ ("#!".toList ++ s) :: post)).2 = none) :
    (parseTokens (pre ++ ("#!".toList ++ s) :: post)).1.RFMLID = s := by
  rw [parseTokens_of_ok _ hok]
  exact foldl_lineUpdate_last (fun t => t.RFMLID) specIsIdentityLine (fun l => l.drop 2)
    (fun _ _ => rfl) pre post _ {} rfl hpost

/-- Example on the lines the scanner yields:
`#!my-test-id` gives "my-test-id". -/
theorem tokens_identity_verbatim_example :
    (∀ l ∈ ["# a comment".toList], specIsIdentityLine l = false) ∧
    (∀ l ∈ ["#title: x".toList, "click".toList], specIsIdentityLine l = false) ∧
    (parseTokens (["# a comment".toList] ++ ("#!".toList ++ "my-test-id".toList) ::
        ["#title: x".toList, "click".toList])).2 = none ∧
    (parseTokens (["# a comment".toList] ++ ("#!".toList ++ "my-test-id".toList) ::
        ["#title: x".toList, "click".toList])).1.RFMLID = "my-test-id".toList :=
  ⟨by decide, by decide, by decide,
    tokens_identity_verbatim ["# a comment".toList] ["#title: x".toList, "click".toList]
      "my-test-id".toList (by decide) (by decide) (by decide)⟩

/-! ## Directives -/

/-- On the lines the scanner yields:
directive lines are split on the first colon only and both sides are
trimmed: for a key text `k` without colon that trims to `title` (respectively
`start_uri`) and any value text `v`, a last such line `#` + `k` + `:` + `v` makes
the parsed Title (respectively StartURI) equal to `v` with only its surrounding
white space removed; colons inside `v` are kept. -/
theorem tokens_title_start_uri_first_colon (pre post : List Str) (k v : Str) (hk : ':' ∉ k)
    (hok : (parseTokens (pre ++ ('#' :: (k ++ ':' :: v)) :: post)).2 = none) :
    (TrimSpace k = "title".toList →
      (∀ l ∈ post, specIsDirective "title".toList l = false) →
      (parseTokens (pre ++ ('#' :: (k ++ ':' :: v)) :: post)).1.Title = TrimSpace v) ∧
    (TrimSpace k = "start_uri".toList →
      (∀ l ∈ post, specIsDirective "start_uri".toList l = false) →
      (parseTokens (pre ++ ('#' :: (k ++ ':' :: v)) :: post)).1.StartURI = TrimSpace v) := by
  rw [parseTokens_of_ok _ hok]
  constructor
  · intro hkey hpost
    have hb := head_ne_bang_of_TrimSpace k _ 't' hkey rfl (by decide)
    obtain ⟨hd, hv, _⟩ := directive_line k v hk hb
    rw [hkey] at hd
    have := foldl_lineUpdate_last (fun t => t.Title) (specIsDirective "title".toList)
      (fun l => TrimSpace (specValueText l)) (fun _ _ => rfl) pre post _ {} hd hpost
    simpa [hv] using this
  · intro hkey hpost
    have hb := head_ne_bang_of_TrimSpace k _ 's' hkey rfl (by decide)
    obtain ⟨hd, hv, _⟩ := directive_line k v hk hb
    rw [hkey] at hd
    have := foldl_lineUpdate_last (fun t => t.StartURI) (specIsDirective "start_uri".toList)
      (fun l => TrimSpace (specValueText l)) (fun _ _ => rfl) pre post _ {} hd hpost
    simpa [hv] using this

/-- Example on the lines the scanner yields:
`#start_uri: http://a:8080/x` gives "http://a:8080/x", and
`# title :  a: b ` gives "a: b". -/
theorem tokens_title_start_uri_first_colon_example :
    ((parseTokens (["#title: old".toList] ++
        ('#' :: (" title ".toList ++ ':' :: "  a: b ".toList)) :: ["#tags: x".toList])).1.Title =
      "a: b".toList) ∧
    ((parseTokens (["#start_uri: /old".toList] ++
        ('#' :: ("start_uri".toList ++ ':' :: " http://a:8080/x".toList)) ::
          ["click".toList])).1.StartURI = "http://a:8080/x".toList) :=
  ⟨((tokens_title_start_uri_first_colon ["#title: old".toList] ["#tags: x".toList]
      " title ".toList "  a: b ".toList (by decide) (by decide)).1 (by decide) (by decide)).trans
      (by decide),
   ((tokens_title_start_uri_first_colon ["#start_uri: /old".toList] ["click".toList]
      "start_uri".toList " http://a:8080/x".toList (by decide) (by decide)).2 (by decide)
      (by decide)).trans (by decide)⟩

theorem tags_line (v : Str) :
    specIsDirective "tags".toList ("#tags:".toList ++ v) = true ∧
      specValueText ("#tags:".toList ++ v) = v := by
  have h := directive_line "tags".toList v (by decide) (by decide)
  have ht : TrimSpace "tags".toList = "tags".toList := by decide
  rw [ht] at h
  exact ⟨h.1, h.2.1⟩

theorem browsers_line (v : Str) :
    specIsDirective "browsers".toList ("#browsers:".toList ++ v) = true ∧
      specValueText ("#browsers:".toList ++ v) = v := by
  have h := directive_line "browsers".toList v (by decide) (by decide)
  have ht : TrimSpace "browsers".toList = "browsers".toList := by decide
  rw [ht] at h
  exact ⟨h.1, h.2.1⟩

theorem length_split_trim (v : Str) :
    ((Split (TrimSpace v) ',').map TrimSpace).length = v.count ',' + 1 := by
  rw [List.length_map, length_Split, count_TrimSpace v ',' isSpace_comma]

/-- On the lines the scanner yields:
for every value text `v`, a tags directive `#tags:` + `v` sets Tags to
the list obtained by splitting the trimmed `v` on every comma and trimming each
piece, in the original order, duplicates kept; the list has exactly (number of
commas in `v`) + 1 elements. The browsers directive does the same for Browsers. -/
theorem tokens_tags_browsers_split (pre post : List Str) (v : Str) :
    ((parseTokens (pre ++ ("#tags:".toList ++ v) :: post)).2 = none →
      (∀ l ∈ post, specIsDirective "tags".toList l = false) →
      (parseTokens (pre ++ ("#tags:".toList ++ v) :: post)).1.Tags =
          ((TrimSpace v).splitOn ',').map TrimSpace ∧
        (parseTokens (pre ++ ("#tags:".toList ++ v) :: post)).1.Tags.length = v.count ',' + 1) ∧
    ((parseTokens (pre ++ ("#browsers:".toList ++ v) :: post)).2 = none →
      (∀ l ∈ post, specIsDirective "browsers".toList l = false) →
      (parseTokens (pre ++ ("#browsers:".toList ++ v) :: post)).1.Browsers =
          ((TrimSpace v).splitOn ',').map TrimSpace ∧
        (parseTokens (pre ++ ("#browsers:".toList ++ v) :: post)).1.Browsers.length =
          v.count ',' + 1) := by
  constructor
  · intro hok hpost
    rw [parseTokens_of_ok _ hok]
    have := foldl_lineUpdate_last (fun t => t.Tags) (specIsDirective "tags".toList)
      (fun l => (Split (TrimSpace (specValueText l)) ',').map TrimSpace) (fun _ _ => rfl)
      pre post _ {} (tags_line v).1 hpost
    simp only [(tags_line v).2] at this
    exact ⟨this.trans (by rw [Split_eq_splitOn]), this ▸ length_split_trim v⟩
  · intro hok hpost
    rw [parseTokens_of_ok _ hok]
    have := foldl_lineUpdate_last (fun t => t.Browsers) (specIsDirective "browsers".toList)
      (fun l => (Split (TrimSpace (specValueText l)) ',').map TrimSpace) (fun _ _ => rfl)
      pre post _ {} (browsers_line v).1 hpost
    simp only [(browsers_line v).2] at this
    exact ⟨this.trans (by rw [Split_eq_splitOn]), this ▸ length_split_trim v⟩

/-- Example on the lines the scanner yields:
`#tags:  a ,b ,  c  ` yields ["a","b","c"], three elements
for two commas; `#browsers: chrome, ie11` yields two elements. -/
theorem tokens_tags_browsers_split_example :
    ((parseTokens (["#tags: old".toList] ++ ("#tags:".toList ++ "  a ,b ,  c  ".toList) ::
        ["#title: t".toList])).1.Tags = ["a".toList, "b".toList, "c".toList] ∧
      (parseTokens (["#tags: old".toList] ++ ("#tags:".toList ++ "  a ,b ,  c  ".toList) ::
        ["#title: t".toList])).1.Tags.length = 3) ∧
    ((parseTokens ([] ++ ("#browsers:".toList ++ " chrome, ie11".toList) ::
        [])).1.Browsers.length = 2) :=
  ⟨⟨by decide,
    ((tokens_tags_browsers_split ["#tags: old".toList] ["#title: t".toList]
      "  a ,b ,  c  ".toList).1 (by decide) (by decide)).2⟩,
   ((tokens_tags_browsers_split [] [] " chrome, ie11".toList).2 (by decide) (by decide)).2⟩

/-- On the lines the scanner yields:
a later tags directive overwrites rather than appends: for successfully
parsed inputs, the final Tags is determined solely by the last tags directive
line, whatever lines (tags directives included) come before it; likewise for
browsers. -/
theorem tokens_last_tags_directive_wins (pre pre2 post post2 : List Str) (line : Str)
    (hok : (parseTokens (pre ++ line :: post)).2 = none)
    (hok2 : (parseTokens (pre2 ++ line :: post2)).2 = none) :
    (specIsDirective "tags".toList line = true →
      (∀ l ∈ post, specIsDirective "tags".toList l = false) →
      (∀ l ∈ post2, specIsDirective "tags".toList l = false) →
      (parseTokens (pre ++ line :: post)).1.Tags =
          (Split (TrimSpace (specValueText line)) ',').map TrimSpace ∧
        (parseTokens (pre ++ line :: post)).1.Tags = (parseTokens (pre2 ++ line :: post2)).1.Tags) ∧
    (specIsDirective "browsers".toList line = true →
      (∀ l ∈ post, specIsDirective "browsers".toList l = false) →
      (∀ l ∈ post2, specIsDirective "browsers".toList l = false) →
      (parseTokens (pre ++ line :: post)).1.Browsers =
          (Split (TrimSpace (specValueText line)) ',').map TrimSpace ∧
        (parseTokens (pre ++ line :: post)).1.Browsers =
          (parseTokens (pre2 ++ line :: post2)).1.Browsers) := by
  rw [parseTokens_of_ok _ hok, parseTokens_of_ok _ hok2]
  constructor
  · intro hl hpost hpost2
    have h1 := foldl_lineUpdate_last (fun t => t.Tags) (specIsDirective "tags".toList)
      (fun l => (Split (TrimSpace (specValueText l)) ',').map TrimSpace) (fun _ _ => rfl)
      pre post line {} hl hpost
    have h2 := foldl_lineUpdate_last (fun t => t.Tags) (specIsDirective "tags".toList)
      (fun l => (Split (TrimSpace (specValueText l)) ',').map TrimSpace) (fun _ _ => rfl)
      pre2 post2 line {} hl hpost2
    exact ⟨h1, h1.trans h2.symm⟩
  · intro hl hpost hpost2
    have h1 := foldl_lineUpdate_last (fun t => t.Browsers) (specIsDirective "browsers".toList)
      (fun l => (Split (TrimSpace (specValueText l)) ',').map TrimSpace) (fun _ _ => rfl)
      pre post line {} hl hpost
    have h2 := foldl_lineUpdate_last (fun t => t.Browsers) (specIsDirective "browsers".toList)
      (fun l => (Split (TrimSpace (specValueText l)) ',').map TrimSpace) (fun _ _ => rfl)
      pre2 post2 line {} hl hpost2
    exact ⟨h1, h1.trans h2.symm⟩

/-- Example on the lines the scanner yields:
`#tags: a, b` then `#tags: c` gives Tags = ["c"], the same
as `#tags: c` alone; `#browsers: x` then `#browsers: chrome` likewise. -/
theorem tokens_last_tags_directive_wins_example :
    ((parseTokens (["#tags: a, b".toList] ++ "#tags: c".toList :: [])).1.Tags = ["c".toList] ∧
      (parseTokens (["#tags: a, b".toList] ++ "#tags: c".toList :: [])).1.Tags =
        (parseTokens ([] ++ "#tags: c".toList :: ["#title: t".toList])).1.Tags) ∧
    ((parseTokens (["#browsers: x".toList] ++ "#browsers: chrome".toList :: [])).1.Browsers =
        ["chrome".toList]) :=
  ⟨⟨by decide,
    ((tokens_last_tags_directive_wins ["#tags: a, b".toList] [] [] ["#title: t".toList]
      "#tags: c".toList (by decide) (by decide)).1 (by decide) (by decide) (by decide)).2⟩,
   (((tokens_last_tags_directive_wins ["#browsers: x".toList] [] [] []
      "#browsers: chrome".toList (by decide) (by decide)).2 (by decide) (by decide)
      (by decide)).1).trans (by decide)⟩

theorem TrimSpace_no_outer_space (y : Str) :
    specBeginsWithSpace (TrimSpace y) = false ∧ specEndsWithSpace (TrimSpace y) = false := by
  constructor
  · unfold specBeginsWithSpace
    cases h : (TrimSpace y).head? with
    | none => rfl
    | some c => exact TrimSpace_head y c h
  · unfold specEndsWithSpace
    cases h : (TrimSpace y).getLast? with
    | none => rfl
    | some c => exact TrimSpace_getLast y c h

theorem lineUpdate_no_outer_space (t : RFTest) (l : Str)
    (h : ∀ x, x ∈ t.Tags ∨ x ∈ t.Browsers →
      specBeginsWithSpace x = false ∧ specEndsWithSpace x = false) :
    ∀ x, x ∈ (lineUpdate t l).Tags ∨ x ∈ (lineUpdate t l).Browsers →
      specBeginsWithSpace x = false ∧ specEndsWithSpace x = false := by
  intro x hx
  rcases hx with hx | hx
  · by_cases hd : specIsDirective "tags".toList l = true
    · simp only [lineUpdate, hd, if_true, List.mem_map] at hx
      obtain ⟨y, _, rfl⟩ := hx
      exact TrimSpace_no_outer_space y
    · simp only [lineUpdate, hd, if_false] at hx
      exact h x (Or.inl hx)
  · by_cases hd : specIsDirective "browsers".toList l = true
    · simp only [lineUpdate, hd, if_true, List.mem_map] at hx
      obtain ⟨y, _, rfl⟩ := hx
      exact TrimSpace_no_outer_space y
    · simp only [lineUpdate, hd, if_false] at hx
      exact h x (Or.inr hx)

theorem foldl_lineUpdate_no_outer_space (ls : List Str) (t : RFTest)
    (h : ∀ x, x ∈ t.Tags ∨ x ∈ t.Browsers →
      specBeginsWithSpace x = false ∧ specEndsWithSpace x = false) :
    ∀ x, x ∈ (ls.foldl lineUpdate t).Tags ∨ x ∈ (ls.foldl lineUpdate t).Browsers →
      specBeginsWithSpace x = false ∧ specEndsWithSpace x = false := by
  induction ls generalizing t with
  | nil => exact h
  | cons l ls ih => exact ih _ (lineUpdate_no_outer_space t l h)

/-- On the lines the scanner yields:
in every document returned by `parseTokens`, for every input, no element
of Tags and no element of Browsers begins or ends with a white-space character. -/
theorem tokens_tags_browsers_no_outer_space (lines : List Str) :
    ∀ x, x ∈ (parseTokens lines).1.Tags ∨ x ∈ (parseTokens lines).1.Browsers →
      specBeginsWithSpace x = false ∧ specEndsWithSpace x = false := by
  by_cases h : (parseTokens lines).2 = none
  · rw [parseTokens_of_ok lines h]
    exact foldl_lineUpdate_no_outer_space lines {} (by
      intro x hx
      rcases hx with hx | hx <;> cases hx)
  · rw [parseTokens_empty_of_error lines h]
    intro x hx
    rcases hx with hx | hx <;> cases hx

/-- Example on the lines the scanner yields:
the tag ` b ` of `#tags:  a , b ` is stored as "b", which
neither begins nor ends with white space. -/
theorem tokens_tags_browsers_no_outer_space_example :
    ("b".toList ∈ (parseTokens ["#tags:  a , b ".toList, "#browsers: chrome ".toList]).1.Tags ∨
      "b".toList ∈ (parseTokens ["#tags:  a , b ".toList, "#browsers: chrome ".toList]).1.Browsers) ∧
    (specBeginsWithSpace "b".toList = false ∧ specEndsWithSpace "b".toList = false) :=
  ⟨by decide,
    tokens_tags_browsers_no_outer_space ["#tags:  a , b ".toList, "#browsers: chrome ".toList]
      "b".toList (by decide)⟩

/-! ## Steps -/

/-- On the lines the scanner yields:
the one-line input `Click the login button` is an
un-prefixed action line and parses successfully, yet the returned document has
no step. -/
theorem tokens_unprefixed_line_no_step :
    specIsIdentityLine "Click the login button".toList = false ∧
    specIsHashLine "Click the login button".toList = false ∧
    (parseTokens ["Click the login button".toList]).2 = none ∧
    ¬ (1 ≤ (parseTokens ["Click the login button".toList]).1.Steps.length) := by
  decide

/-- On the lines the scanner yields:
for every input, the document returned by `parseTokens` has no
entry in Steps: the reader starts no step and finalizes none, so the number of
entries (zero) is the number of steps it starts, whatever un-prefixed lines the
input contains. -/
theorem tokens_steps_count_is_zero (lines : List Str) :
    (parseTokens lines).1.Steps.length = 0 := by
  rw [parseTokens_Steps]
  rfl

/-! ## Lines without effect, and the frame of a line -/

theorem foldl_lineUpdate_field {α : Type} (f : RFTest → α) (u : α → Str → α)
    (hstep : ∀ t l, f (lineUpdate t l) = u (f t) l) (ls : List Str) (t : RFTest) :
    f (ls.foldl lineUpdate t) = ls.foldl u (f t) := by
  induction ls generalizing t with
  | nil => rfl
  | cons l ls ih => rw [List.foldl_cons, List.foldl_cons, ih, hstep]

theorem foldl_lineUpdate_skip {α : Type} (f : RFTest → α) (u : α → Str → α)
    (hstep : ∀ t l, f (lineUpdate t l) = u (f t) l) (pre post : List Str) (l : Str)
    (t : RFTest) (hl : ∀ a, u a l = a) :
    f ((pre ++ l :: post).foldl lineUpdate t) = f ((pre ++ post).foldl lineUpdate t) := by
  rw [foldl_lineUpdate_field f u hstep, foldl_lineUpdate_field f u hstep, List.foldl_append,
    List.foldl_append, List.foldl_cons, hl]

theorem specIsDirective_unique (k k2 : Str) (l : Str) (h : specIsDirective k l = true)
    (hne : k2 ≠ k) : specIsDirective k2 l = false := by
  simp only [specIsDirective, Bool.and_eq_true, beq_iff_eq] at h
  simp only [specIsDirective, h.1.1, h.1.2, Bool.and_self, Bool.true_and, h.2]
  simpa using Ne.symm hne

theorem specIsDirective_not_identity (k : Str) (l : Str) (h : specIsDirective k l = true) :
    specIsIdentityLine l = false := by
  simp only [specIsDirective, specIsHashLine, Bool.and_eq_true, Bool.not_eq_true'] at h
  simp only [specIsIdentityLine, h.1.1.2, Bool.and_false]

theorem specIsDirective_not_description (k : Str) (l : Str) (h : specIsDirective k l = true)
    (hk : k ∈ specRecognizedKeys) : specIsDescriptionLine l = false := by
  simp only [specIsDirective, Bool.and_eq_true, beq_iff_eq] at h
  have hc : specRecognizedKeys.contains (TrimSpace (specKeyText l)) = true := by
    rw [h.2]
    simpa using hk
  simp only [specIsDescriptionLine, h.1.1, h.1.2, hc, Bool.not_true, Bool.or_self,
    Bool.and_false]

theorem unprefixed_not_directive (k : Str) (l : Str) (h : l.head? ≠ some '#') :
    specIsDirective k l = false ∧ specIsIdentityLine l = false ∧
      specIsDescriptionLine l = false ∧ specBadSiteIdLine l = false := by
  have hh : (l.head? == some '#') = false := by simpa using h
  simp [specIsDirective, specIsIdentityLine, specIsDescriptionLine, specBadSiteIdLine,
    specIsHashLine, hh]

theorem lineUpdate_eq_self (t : RFTest) (l : Str) (hid : specIsIdentityLine l = false)
    (h1 : specIsDirective "title".toList l = false)
    (h2 : specIsDirective "start_uri".toList l = false)
    (h3 : specIsDirective "site_id".toList l = false)
    (h4 : specIsDirective "tags".toList l = false)
    (h5 : specIsDirective "browsers".toList l = false)
    (hd : specIsDescriptionLine l = false) : lineUpdate t l = t := by
  simp only [lineUpdate, hid, h1, h2, h3, h4, h5, hd, Bool.false_eq_true, if_false]

theorem lineUpdate_unprefixed (t : RFTest) (l : Str) (h : l.head? ≠ some '#') :
    lineUpdate t l = t :=
  lineUpdate_eq_self t l (unprefixed_not_directive [] l h).2.1
    (unprefixed_not_directive _ l h).1 (unprefixed_not_directive _ l h).1
    (unprefixed_not_directive _ l h).1 (unprefixed_not_directive _ l h).1
    (unprefixed_not_directive _ l h).1 (unprefixed_not_directive [] l h).2.2.1

theorem lineUpdate_redirect (t : RFTest) (l : Str)
    (h : specIsDirective "redirect".toList l = true) : lineUpdate t l = t :=
  lineUpdate_eq_self t l (specIsDirective_not_identity _ l h)
    (specIsDirective_unique _ _ l h (by decide)) (specIsDirective_unique _ _ l h (by decide))
    (specIsDirective_unique _ _ l h (by decide)) (specIsDirective_unique _ _ l h (by decide))
    (specIsDirective_unique _ _ l h (by decide))
    (specIsDirective_not_description _ l h (by decide))

theorem parseTokens_ok_insert (pre post : List Str) (l : Str) (hbad : specBadSiteIdLine l = false) :
    (parseTokens (pre ++ l :: post)).2 = none ↔ (parseTokens (pre ++ post)).2 = none := by
  rw [parseTokens_ok_iff, parseTokens_ok_iff]
  constructor
  · intro h x hx
    apply h
    rcases List.mem_append.1 hx with hx | hx
    · exact List.mem_append_left _ hx
    · exact List.mem_append_right _ (List.mem_cons_of_mem _ hx)
  · intro h x hx
    rcases List.mem_append.1 hx with hx | hx
    · exact h x (List.mem_append_left _ hx)
    · rcases List.mem_cons.1 hx with rfl | hx
      · exact hbad
      · exact h x (List.mem_append_right _ hx)

theorem parseTokens_ok_remove (pre post : List Str) (l : Str)
    (h : (parseTokens (pre ++ l :: post)).2 = none) : (parseTokens (pre ++ post)).2 = none := by
  rw [parseTokens_ok_iff] at h ⊢
  intro x hx
  apply h
  rcases List.mem_append.1 hx with hx | hx
  · exact List.mem_append_left _ hx
  · exact List.mem_append_right _ (List.mem_cons_of_mem _ hx)

theorem parseTokens_insert_noop (pre post : List Str) (l : Str)
    (hnoop : ∀ t, lineUpdate t l = t) (hbad : specBadSiteIdLine l = false) :
    (parseTokens (pre ++ l :: post)).1 = (parseTokens (pre ++ post)).1 := by
  by_cases h : (parseTokens (pre ++ post)).2 = none
  · have h2 := (parseTokens_ok_insert pre post l hbad).2 h
    rw [parseTokens_of_ok _ h, parseTokens_of_ok _ h2]
    simp only [List.foldl_append, List.foldl_cons, hnoop]
  · have h2 : (parseTokens (pre ++ l :: post)).2 ≠ none :=
      fun hh => h ((parseTokens_ok_insert pre post l hbad).1 hh)
    rw [parseTokens_empty_of_error _ h, parseTokens_empty_of_error _ h2]

theorem parseTokens_insert_frame {α : Type} (f : RFTest → α) (u : α → Str → α)
    (hstep : ∀ t l, f (lineUpdate t l) = u (f t) l) (pre post : List Str) (l : Str)
    (hl : ∀ a, u a l = a) (hbad : specBadSiteIdLine l = false) :
    f (parseTokens (pre ++ l :: post)).1 = f (parseTokens (pre ++ post)).1 := by
  by_cases h : (parseTokens (pre ++ post)).2 = none
  · have h2 := (parseTokens_ok_insert pre post l hbad).2 h
    rw [parseTokens_of_ok _ h, parseTokens_of_ok _ h2]
    exact foldl_lineUpdate_skip f u hstep pre post l {} hl
  · have h2 : (parseTokens (pre ++ l :: post)).2 ≠ none :=
      fun hh => h ((parseTokens_ok_insert pre post l hbad).1 hh)
    rw [parseTokens_empty_of_error _ h, parseTokens_empty_of_error _ h2]

/-! ## Redirect directive -/

/-- On the lines the scanner yields:
a `#redirect:` directive line directly before, or
directly after, an un-prefixed step line parses successfully, yet the returned
document contains no step whose Redirect flag is true. -/
theorem tokens_redirect_marks_no_step :
    specIsDirective "redirect".toList "#redirect: true".toList = true ∧
    (parseTokens ["#redirect: true".toList, "Click the login button".toList]).2 = none ∧
    (¬ ∃ s ∈ (parseTokens ["#redirect: true".toList, "Click the login button".toList]).1.Steps,
      stepRedirect s = true) ∧
    (parseTokens ["Click the login button".toList, "#redirect: true".toList]).2 = none ∧
    (¬ ∃ s ∈ (parseTokens ["Click the login button".toList, "#redirect: true".toList]).1.Steps,
      stepRedirect s = true) := by
  decide

/-- On the lines the scanner yields:
a redirect directive is recognized but marks no step: for
every input containing a redirect directive line, the returned document has no
step whose Redirect flag is true, the line causes no error of its own, and the
document is the same as for the input without that line. -/
theorem tokens_redirect_directive_no_effect (pre post : List Str) (line : Str)
    (hdir : specIsDirective "redirect".toList line = true) :
    (∀ s ∈ (parseTokens (pre ++ line :: post)).1.Steps, stepRedirect s = false) ∧
      ((parseTokens (pre ++ line :: post)).2 = none ↔ (parseTokens (pre ++ post)).2 = none) ∧
      (parseTokens (pre ++ line :: post)).1 = (parseTokens (pre ++ post)).1 := by
  have hbad : specBadSiteIdLine line = false := by
    have hs : specIsDirective "site_id".toList line = false :=
      specIsDirective_unique _ _ line hdir (by decide)
    simp only [specBadSiteIdLine, hs, Bool.false_and]
  refine ⟨?_, parseTokens_ok_insert pre post line hbad,
    parseTokens_insert_noop pre post line (fun t => lineUpdate_redirect t line hdir) hbad⟩
  rw [parseTokens_Steps]
  intro s hs
  cases hs

/-- Example on the lines the scanner yields:
`# redirect : true` between a title and a step
line leaves the document of the input without it. -/
theorem tokens_redirect_directive_no_effect_example :
    specIsDirective "redirect".toList "# redirect : true".toList = true ∧
    (parseTokens (["#title: T".toList] ++ "# redirect : true".toList ::
        ["Click the login button".toList])).1 =
      (parseTokens (["#title: T".toList] ++ ["Click the login button".toList])).1 :=
  ⟨by decide,
    (tokens_redirect_directive_no_effect ["#title: T".toList] ["Click the login button".toList]
      "# redirect : true".toList (by decide)).2.2⟩

/-! ## Un-prefixed lines and identity lines -/

/-- On the lines the scanner yields:
un-prefixed lines have no effect on the parsed document: for every
input the Steps of the returned document is empty, and inserting or deleting a
line that does not start with `#` (a blank line included) anywhere in the input
changes neither whether the parse succeeds nor the returned document. -/
theorem tokens_unprefixed_lines_no_effect (lines pre post : List Str) (l : Str) :
    (parseTokens lines).1.Steps = [] ∧
      (l.head? ≠ some '#' →
        ((parseTokens (pre ++ l :: post)).2 = none ↔ (parseTokens (pre ++ post)).2 = none) ∧
        (parseTokens (pre ++ l :: post)).1 = (parseTokens (pre ++ post)).1) := by
  refine ⟨parseTokens_Steps lines, fun h => ?_⟩
  have hbad := (unprefixed_not_directive [] l h).2.2.2
  exact ⟨parseTokens_ok_insert pre post l hbad,
    parseTokens_insert_noop pre post l (fun t => lineUpdate_unprefixed t l h) hbad⟩

/-- Example on the lines the scanner yields:
a step line and a blank line inserted into a successfully
parsed input leave the document unchanged. -/
theorem tokens_unprefixed_lines_no_effect_example :
    ("Click the login button".toList.head? ≠ some '#') ∧
    (parseTokens (["#!id".toList, "#title: T".toList] ++ "Click the login button".toList ::
        ["# text".toList])).2 = none ∧
    (parseTokens (["#!id".toList, "#title: T".toList] ++ "Click the login button".toList ::
        ["# text".toList])).1 =
      (parseTokens (["#!id".toList, "#title: T".toList] ++ ["# text".toList])).1 ∧
    (parseTokens (["#!id".toList] ++ "".toList :: ["#title: T".toList])).1 =
      (parseTokens (["#!id".toList] ++ ["#title: T".toList])).1 :=
  ⟨by decide, by decide,
    ((tokens_unprefixed_lines_no_effect [] ["#!id".toList, "#title: T".toList] ["# text".toList]
      "Click the login button".toList).2 (by decide)).2,
    ((tokens_unprefixed_lines_no_effect [] ["#!id".toList] ["#title: T".toList]
      "".toList).2 (by decide)).2⟩

/-- On the lines the scanner yields:
an identity line is accepted at any position and the last one wins:
for every successfully parsed input containing a line starting with `#!`,
RFMLID is the remainder of the last such line, whatever its line number and
whatever identity lines precede it. -/
theorem tokens_last_identity_line_wins (pre post : List Str) (line : Str)
    (hid : specIsIdentityLine line = true)
    (hpost : ∀ l ∈ post, specIsIdentityLine l = false)
    (hok : (parseTokens (pre ++ line :: post)).2 = none) :
    (parseTokens (pre ++ line :: post)).1.RFMLID = line.drop 2 := by
  rw [parseTokens_of_ok _ hok]
  exact foldl_lineUpdate_last (fun t => t.RFMLID) specIsIdentityLine (fun l => l.drop 2)
    (fun _ _ => rfl) pre post line {} hid hpost

/-- Example on the lines the scanner yields:
with `#!first` on line 1 and `#!second id` on line 4, the
identity is "second id". -/
theorem tokens_last_identity_line_wins_example :
    specIsIdentityLine "#!second id".toList = true ∧
    (∀ l ∈ ["# text".toList, "click".toList], specIsIdentityLine l = false) ∧
    (parseTokens (["#!first".toList, "#title: T".toList, "".toList] ++ "#!second id".toList ::
        ["# text".toList, "click".toList])).2 = none ∧
    (parseTokens (["#!first".toList, "#title: T".toList, "".toList] ++ "#!second id".toList ::
        ["# text".toList, "click".toList])).1.RFMLID = "second id".toList :=
  ⟨by decide, by decide, by decide,
    tokens_last_identity_line_wins ["#!first".toList, "#title: T".toList, "".toList]
      ["# text".toList, "click".toList] "#!second id".toList (by decide) (by decide)
      (by decide)⟩

theorem identity_not_directive (k : Str) (l : Str) (h : specIsIdentityLine l = true) :
    specIsDirective k l = false ∧ specIsDescriptionLine l = false ∧
      specBadSiteIdLine l = false := by
  simp only [specIsIdentityLine, Bool.and_eq_true] at h
  have hh : specIsHashLine l = false := by
    simp only [specIsHashLine, h.1, h.2, Bool.not_true, Bool.and_false]
  simp only [specIsDirective, specIsDescriptionLine, specBadSiteIdLine, hh, Bool.false_and,
    and_self]

theorem identity_line (s : Str) : specIsIdentityLine ("#!".toList ++ s) = true := rfl

/-- On the lines the scanner yields:
the identity rule has priority over the directive rule: a line
starting with `#!` only sets the identity, even when its remainder looks like a
directive. For every input, the line `#!` + `s` causes no error and leaves Title,
StartURI, SiteID, Tags, Browsers and Description as they are without the line;
RFMLID becomes the whole remainder `s` (when no identity line follows). -/
theorem tokens_identity_rule_priority (pre post : List Str) (s : Str) :
    ((parseTokens (pre ++ ("#!".toList ++ s) :: post)).2 = none ↔
        (parseTokens (pre ++ post)).2 = none) ∧
      ((parseTokens (pre ++ ("#!".toList ++ s) :: post)).1.Title = (parseTokens (pre ++ post)).1.Title ∧
        (parseTokens (pre ++ ("#!".toList ++ s) :: post)).1.StartURI =
          (parseTokens (pre ++ post)).1.StartURI ∧
        (parseTokens (pre ++ ("#!".toList ++ s) :: post)).1.SiteID =
          (parseTokens (pre ++ post)).1.SiteID ∧
        (parseTokens (pre ++ ("#!".toList ++ s) :: post)).1.Tags = (parseTokens (pre ++ post)).1.Tags ∧
        (parseTokens (pre ++ ("#!".toList ++ s) :: post)).1.Browsers =
          (parseTokens (pre ++ post)).1.Browsers ∧
        (parseTokens (pre ++ ("#!".toList ++ s) :: post)).1.Description =
          (parseTokens (pre ++ post)).1.Description) ∧
      ((parseTokens (pre ++ ("#!".toList ++ s) :: post)).2 = none →
        (∀ l ∈ post, specIsIdentityLine l = false) →
        (parseTokens (pre ++ ("#!".toList ++ s) :: post)).1.RFMLID = s) := by
  have hid := identity_line s
  have hnd := fun k => (identity_not_directive k _ hid).1
  have hdesc := (identity_not_directive [] _ hid).2.1
  have hbad := (identity_not_directive [] _ hid).2.2
  refine ⟨parseTokens_ok_insert pre post _ hbad, ⟨?_, ?_, ?_, ?_, ?_, ?_⟩, ?_⟩
  · exact parseTokens_insert_frame (fun t => t.Title)
      (fun a l => if specIsDirective "title".toList l = true
        then TrimSpace (specValueText l) else a)
      (fun _ _ => rfl) pre post _ (fun a => by simp only [hnd, Bool.false_eq_true, if_false]) hbad
  · exact parseTokens_insert_frame (fun t => t.StartURI)
      (fun a l => if specIsDirective "start_uri".toList l = true
        then TrimSpace (specValueText l) else a)
      (fun _ _ => rfl) pre post _ (fun a => by simp only [hnd, Bool.false_eq_true, if_false]) hbad
  · exact parseTokens_insert_frame (fun t => t.SiteID)
      (fun a l => if specIsDirective "site_id".toList l = true
        then specIntValue (TrimSpace (specValueText l)) else a)
      (fun _ _ => rfl) pre post _ (fun a => by simp only [hnd, Bool.false_eq_true, if_false]) hbad
  · exact parseTokens_insert_frame (fun t => t.Tags)
      (fun a l => if specIsDirective "tags".toList l = true
        then (Split (TrimSpace (specValueText l)) ',').map TrimSpace else a)
      (fun _ _ => rfl) pre post _ (fun a => by simp only [hnd, Bool.false_eq_true, if_false]) hbad
  · exact parseTokens_insert_frame (fun t => t.Browsers)
      (fun a l => if specIsDirective "browsers".toList l = true
        then (Split (TrimSpace (specValueText l)) ',').map TrimSpace else a)
      (fun _ _ => rfl) pre post _ (fun a => by simp only [hnd, Bool.false_eq_true, if_false]) hbad
  · exact parseTokens_insert_frame (fun t => t.Description)
      (fun a l => if specIsDescriptionLine l = true then a ++ l.drop 1 ++ "\n".toList else a)
      (fun _ _ => rfl) pre post _ (fun a => by simp only [hdesc, Bool.false_eq_true, if_false])
      hbad
  · intro hok hpost
    rw [parseTokens_of_ok _ hok]
    exact foldl_lineUpdate_last (fun t => t.RFMLID) specIsIdentityLine (fun l => l.drop 2)
      (fun _ _ => rfl) pre post _ {} hid hpost

/-- Example on the lines the scanner yields:
`#!title: x` after `#title: T` leaves Title "T" and sets
RFMLID to "title: x"; `#!site_id: abc` causes no error. -/
theorem tokens_identity_rule_priority_example :
    (parseTokens (["#title: T".toList] ++ ("#!".toList ++ "title: x".toList) ::
        ["# text".toList])).1.RFMLID = "title: x".toList ∧
    (parseTokens (["#title: T".toList] ++ ("#!".toList ++ "title: x".toList) ::
        ["# text".toList])).1.Title = "T".toList ∧
    (parseTokens ([] ++ ("#!".toList ++ "site_id: abc".toList) :: [])).2 = none :=
  ⟨(tokens_identity_rule_priority ["#title: T".toList] ["# text".toList] "title: x".toList).2.2
      (by decide) (by decide),
    ((tokens_identity_rule_priority ["#title: T".toList] ["# text".toList]
      "title: x".toList).2.1.1).trans (by decide),
    (tokens_identity_rule_priority [] [] "site_id: abc".toList).1.2 (by decide)⟩

/-! ## Frame of a recognized directive, and absent metadata -/

/-- On the lines the scanner yields:
each recognized directive is a setter on its own field only: for every
successfully parsed input, a line whose trimmed key is title, start_uri,
site_id, tags, browsers or redirect contributes nothing to Description and
changes no field other than the one it names, so the input without that line
parses to a document that differs in at most that one field. -/
theorem tokens_directive_sets_own_field_only (pre post : List Str) (key line : Str)
    (hkey : key ∈ specRecognizedKeys) (hdir : specIsDirective key line = true)
    (hok : (parseTokens (pre ++ line :: post)).2 = none) :
    (parseTokens (pre ++ post)).2 = none ∧
      (parseTokens (pre ++ line :: post)).1.Description = (parseTokens (pre ++ post)).1.Description ∧
      (parseTokens (pre ++ line :: post)).1.RFMLID = (parseTokens (pre ++ post)).1.RFMLID ∧
      (parseTokens (pre ++ line :: post)).1.BrowsersMap = (parseTokens (pre ++ post)).1.BrowsersMap ∧
      (parseTokens (pre ++ line :: post)).1.Steps = (parseTokens (pre ++ post)).1.Steps ∧
      (key ≠ "title".toList →
        (parseTokens (pre ++ line :: post)).1.Title = (parseTokens (pre ++ post)).1.Title) ∧
      (key ≠ "start_uri".toList →
        (parseTokens (pre ++ line :: post)).1.StartURI = (parseTokens (pre ++ post)).1.StartURI) ∧
      (key ≠ "site_id".toList →
        (parseTokens (pre ++ line :: post)).1.SiteID = (parseTokens (pre ++ post)).1.SiteID) ∧
      (key ≠ "tags".toList →
        (parseTokens (pre ++ line :: post)).1.Tags = (parseTokens (pre ++ post)).1.Tags) ∧
      (key ≠ "browsers".toList →
        (parseTokens (pre ++ line :: post)).1.Browsers = (parseTokens (pre ++ post)).1.Browsers) := by
  have hbad : specBadSiteIdLine line = false :=
    (parseTokens_ok_iff _).1 hok line (List.mem_append_right _ (List.mem_cons_self _ _))
  have hid := specIsDirective_not_identity key line hdir
  have hdesc := specIsDirective_not_description key line hdir hkey
  have hoth : ∀ k2, key ≠ k2 → specIsDirective k2 line = false :=
    fun k2 hne => specIsDirective_unique key k2 line hdir (Ne.symm hne)
  refine ⟨parseTokens_ok_remove pre post line hok, ?_, ?_, ?_, ?_, ?_, ?_, ?_, ?_, ?_⟩
  · exact parseTokens_insert_frame (fun t => t.Description)
      (fun a l => if specIsDescriptionLine l = true then a ++ l.drop 1 ++ "\n".toList else a)
      (fun _ _ => rfl) pre post _ (fun a => by simp only [hdesc, Bool.false_eq_true, if_false])
      hbad
  · exact parseTokens_insert_frame (fun t => t.RFMLID)
      (fun a l => if specIsIdentityLine l = true then l.drop 2 else a)
      (fun _ _ => rfl) pre post _ (fun a => by simp only [hid, Bool.false_eq_true, if_false])
      hbad
  · exact parseTokens_insert_frame (fun t => t.BrowsersMap) (fun a _ => a)
      (fun _ _ => rfl) pre post _ (fun _ => rfl) hbad
  · exact parseTokens_insert_frame (fun t => t.Steps) (fun a _ => a)
      (fun _ _ => rfl) pre post _ (fun _ => rfl) hbad
  · intro hne
    exact parseTokens_insert_frame (fun t => t.Title)
      (fun a l => if specIsDirective "title".toList l = true
        then TrimSpace (specValueText l) else a)
      (fun _ _ => rfl) pre post _
      (fun a => by simp only [hoth _ hne, Bool.false_eq_true, if_false]) hbad
  · intro hne
    exact parseTokens_insert_frame (fun t => t.StartURI)
      (fun a l => if specIsDirective "start_uri".toList l = true
        then TrimSpace (specValueText l) else a)
      (fun _ _ => rfl) pre post _
      (fun a => by simp only [hoth _ hne, Bool.false_eq_true, if_false]) hbad
  · intro hne
    exact parseTokens_insert_frame (fun t => t.SiteID)
      (fun a l => if specIsDirective "site_id".toList l = true
        then specIntValue (TrimSpace (specValueText l)) else a)
      (fun _ _ => rfl) pre post _
      (fun a => by simp only [hoth _ hne, Bool.false_eq_true, if_false]) hbad
  · intro hne
    exact parseTokens_insert_frame (fun t => t.Tags)
      (fun a l => if specIsDirective "tags".toList l = true
        then (Split (TrimSpace (specValueText l)) ',').map TrimSpace else a)
      (fun _ _ => rfl) pre post _
      (fun a => by simp only [hoth _ hne, Bool.false_eq_true, if_false]) hbad
  · intro hne
    exact parseTokens_insert_frame (fun t => t.Browsers)
      (fun a l => if specIsDirective "browsers".toList l = true
        then (Split (TrimSpace (specValueText l)) ',').map TrimSpace else a)
      (fun _ _ => rfl) pre post _
      (fun a => by simp only [hoth _ hne, Bool.false_eq_true, if_false]) hbad

/-- Example on the lines the scanner yields:
removing `#tags: a, b` from a successfully parsed input
keeps Description and Title (and changes Tags only). -/
theorem tokens_directive_sets_own_field_only_example :
    "tags".toList ∈ specRecognizedKeys ∧
    specIsDirective "tags".toList "#tags: a, b".toList = true ∧
    (parseTokens (["#title: T".toList, "# text".toList] ++ "#tags: a, b".toList ::
        ["#site_id: 5".toList])).2 = none ∧
    (parseTokens (["#title: T".toList, "# text".toList] ++ "#tags: a, b".toList ::
        ["#site_id: 5".toList])).1.Description =
      (parseTokens (["#title: T".toList, "# text".toList] ++ ["#site_id: 5".toList])).1.Description ∧
    (parseTokens (["#title: T".toList, "# text".toList] ++ "#tags: a, b".toList ::
        ["#site_id: 5".toList])).1.Title =
      (parseTokens (["#title: T".toList, "# text".toList] ++ ["#site_id: 5".toList])).1.Title :=
  ⟨by decide, by decide, by decide,
    (tokens_directive_sets_own_field_only ["#title: T".toList, "# text".toList]
      ["#site_id: 5".toList] "tags".toList "#tags: a, b".toList (by decide) (by decide)
      (by decide)).2.1,
    (tokens_directive_sets_own_field_only ["#title: T".toList, "# text".toList]
      ["#site_id: 5".toList] "tags".toList "#tags: a, b".toList (by decide) (by decide)
      (by decide)).2.2.2.2.2.1 (by decide)⟩

theorem parseTokens_field_keep {α : Type} (f : RFTest → α) (p : Str → Bool) (g : Str → α)
    (hstep : ∀ t l, f (lineUpdate t l) = if p l = true then g l else f t)
    (lines : List Str) (h : ∀ l ∈ lines, p l = false) :
    f (parseTokens lines).1 = f {} := by
  by_cases hok : (parseTokens lines).2 = none
  · rw [parseTokens_of_ok _ hok]
    exact foldl_lineUpdate_keep f p g hstep lines {} h
  · rw [parseTokens_empty_of_error _ hok]

/-- On the lines the scanner yields:
absent metadata stays at its zero value and is not an error: for
every input (so for every successfully parsed one) a field with no
corresponding line is empty: RFMLID without a `#!` line, Title without a title
directive, StartURI without start_uri, SiteID 0 without site_id, Tags and
Browsers without tags / browsers directives, Description without description
lines; an input without site_id directive parses with no error, and the empty
input parses to the empty document with no error. -/
theorem tokens_absent_metadata_zero (lines : List Str) :
    ((∀ l ∈ lines, specIsDirective "site_id".toList l = false) → (parseTokens lines).2 = none) ∧
    ((∀ l ∈ lines, specIsIdentityLine l = false) → (parseTokens lines).1.RFMLID = []) ∧
    ((∀ l ∈ lines, specIsDirective "title".toList l = false) → (parseTokens lines).1.Title = []) ∧
    ((∀ l ∈ lines, specIsDirective "start_uri".toList l = false) →
      (parseTokens lines).1.StartURI = []) ∧
    ((∀ l ∈ lines, specIsDirective "site_id".toList l = false) → (parseTokens lines).1.SiteID = 0) ∧
    ((∀ l ∈ lines, specIsDirective "tags".toList l = false) → (parseTokens lines).1.Tags = []) ∧
    ((∀ l ∈ lines, specIsDirective "browsers".toList l = false) →
      (parseTokens lines).1.Browsers = []) ∧
    ((∀ l ∈ lines, specIsDescriptionLine l = false) → (parseTokens lines).1.Description = []) ∧
    parseTokens [] =
      ({ RFMLID := [], Title := [], StartURI := [], SiteID := 0, Description := [],
         Tags := [], BrowsersMap := [], Browsers := [], Steps := [] }, none) := by
  refine ⟨?_, ?_, ?_, ?_, ?_, ?_, ?_, ?_, rfl⟩
  · intro h
    rw [parseTokens_ok_iff]
    intro l hl
    simp only [specBadSiteIdLine, h l hl, Bool.false_and]
  · exact parseTokens_field_keep (fun t => t.RFMLID) specIsIdentityLine (fun l => l.drop 2)
      (fun _ _ => rfl) lines
  · exact parseTokens_field_keep (fun t => t.Title) (specIsDirective "title".toList)
      (fun l => TrimSpace (specValueText l)) (fun _ _ => rfl) lines
  · exact parseTokens_field_keep (fun t => t.StartURI) (specIsDirective "start_uri".toList)
      (fun l => TrimSpace (specValueText l)) (fun _ _ => rfl) lines
  · exact parseTokens_field_keep (fun t => t.SiteID) (specIsDirective "site_id".toList)
      (fun l => specIntValue (TrimSpace (specValueText l))) (fun _ _ => rfl) lines
  · exact parseTokens_field_keep (fun t => t.Tags) (specIsDirective "tags".toList)
      (fun l => (Split (TrimSpace (specValueText l)) ',').map TrimSpace) (fun _ _ => rfl) lines
  · exact parseTokens_field_keep (fun t => t.Browsers) (specIsDirective "browsers".toList)
      (fun l => (Split (TrimSpace (specValueText l)) ',').map TrimSpace) (fun _ _ => rfl) lines
  · intro h
    by_cases hok : (parseTokens lines).2 = none
    · rw [parseTokens_of_ok _ hok, foldl_lineUpdate_Description]
      have hf : lines.filter specIsDescriptionLine = [] := by
        rw [List.filter_eq_nil_iff]
        intro l hl
        simp [h l hl]
      simp [hf]
    · rw [parseTokens_empty_of_error _ hok]

/-- Example on the lines the scanner yields:
an input with a title and step lines only parses with no
error and leaves RFMLID, SiteID and Tags at their zero values. -/
theorem tokens_absent_metadata_zero_example :
    (parseTokens ["#title: T".toList, "Click the login button".toList, "".toList]).2 = none ∧
    (parseTokens ["#title: T".toList, "Click the login button".toList, "".toList]).1.RFMLID = [] ∧
    (parseTokens ["#title: T".toList, "Click the login button".toList, "".toList]).1.SiteID = 0 ∧
    (parseTokens ["#title: T".toList, "Click the login button".toList, "".toList]).1.Tags = [] :=
  ⟨(tokens_absent_metadata_zero
      ["#title: T".toList, "Click the login button".toList, "".toList]).1 (by decide),
    (tokens_absent_metadata_zero
      ["#title: T".toList, "Click the login button".toList, "".toList]).2.1 (by decide),
    (tokens_absent_metadata_zero
      ["#title: T".toList, "Click the login button".toList, "".toList]).2.2.2.2.1 (by decide),
    (tokens_absent_metadata_zero
      ["#title: T".toList, "Click the login button".toList, "".toList]).2.2.2.2.2.1
      (by decide)⟩

/-! ## Site id round trip -/

theorem digit_char (k : Nat) (hk : k < 10) :
    specIsDigit (Char.ofNat ('0'.toNat + k)) = true ∧
      (Char.ofNat ('0'.toNat + k)).toNat - '0'.toNat = k := by
  revert k
  decide

theorem specDigitsAux_spec (fuel n : Nat) (acc : Str) (h : n < fuel) :
    ∃ ds, specDigitsAux fuel n acc = ds ++ acc ∧ ds ≠ [] ∧
      (∀ c ∈ ds, specIsDigit c = true) ∧ specDecimalValue ds = n := by
  induction fuel generalizing n acc with
  | zero => omega
  | succ fuel ih =>
    have hd := digit_char (n % 10) (Nat.mod_lt _ (by norm_num))
    unfold specDigitsAux
    by_cases h0 : n / 10 = 0
    · rw [if_pos h0]
      refine ⟨[Char.ofNat ('0'.toNat + n % 10)], rfl, by simp, ?_, ?_⟩
      · intro c hc
        rw [List.mem_singleton.1 hc]
        exact hd.1
      · simp only [specDecimalValue, List.foldl_cons, List.foldl_nil, hd.2]
        omega
    · rw [if_neg h0]
      obtain ⟨ds, he, _, hall, hv⟩ := ih (n / 10) (Char.ofNat ('0'.toNat + n % 10) :: acc)
        (by omega)
      refine ⟨ds ++ [Char.ofNat ('0'.toNat + n % 10)], ?_, by simp, ?_, ?_⟩
      · rw [he, List.append_assoc]
        rfl
      · intro c hc
        rcases List.mem_append.1 hc with hc | hc
        · exact hall c hc
        · rw [List.mem_singleton.1 hc]
          exact hd.1
      · unfold specDecimalValue at hv ⊢
        rw [List.foldl_append, hv]
        simp only [List.foldl_cons, List.foldl_nil, hd.2]
        omega

theorem specNatDecimal_spec (n : Nat) :
    specNatDecimal n ≠ [] ∧ (∀ c ∈ specNatDecimal n, specIsDigit c = true) ∧
      specDecimalValue (specNatDecimal n) = n := by
  obtain ⟨ds, he, hne, hall, hv⟩ := specDigitsAux_spec (n + 1) n [] (by omega)
  unfold specNatDecimal
  rw [he, List.append_nil]
  exact ⟨hne, hall, hv⟩

theorem isSpace_of_digit (c : Char) (h : specIsDigit c = true) : isSpace c = false := by
  have hb := (specIsDigit_iff c).1 h
  have h1 : c.toNat ≠ 9 := by omega
  have h2 : c.toNat ≠ 10 := by omega
  have h3 : c.toNat ≠ 11 := by omega
  have h4 : c.toNat ≠ 12 := by omega
  have h5 : c.toNat ≠ 13 := by omega
  have h6 : c.toNat ≠ 32 := by omega
  have h7 : c.toNat ≠ 133 := by omega
  have h8 : c.toNat ≠ 160 := by omega
  have h9 : c.toNat ≠ 5760 := by omega
  have h10 : ¬ 8192 ≤ c.toNat := by omega
  have h11 : c.toNat ≠ 8232 := by omega
  have h12 : c.toNat ≠ 8233 := by omega
  have h13 : c.toNat ≠ 8239 := by omega
  have h14 : c.toNat ≠ 8287 := by omega
  have h15 : c.toNat ≠ 12288 := by omega
  simp [isSpace, h1, h2, h3, h4, h5, h6, h7, h8, h9, h10, h11, h12, h13, h14, h15]

theorem specStripSign_of_digit (s : Str) (c : Char) (hc : s.head? = some c)
    (hd : specIsDigit c = true) : specStripSign s = s ∧ s.head? ≠ some '-' := by
  have hp : c ≠ '+' := fun e => by rw [e] at hd; revert hd; decide
  have hm : c ≠ '-' := fun e => by rw [e] at hd; revert hd; decide
  have := ParseInt_stripSign s
  rw [hc] at this
  simp only [Option.some.injEq, hp, hm, or_self, if_false] at this
  refine ⟨this.symm, ?_⟩
  rw [hc]
  simpa using hm

/-- The decimal rendering of an integer in the range of `int` is a valid
integer whose value is that integer, and it contains no white space. -/
theorem specItoa_spec (n : Int) (hlo : -(2 : Int) ^ 63 ≤ n) (hhi : n ≤ 2 ^ 63 - 1) :
    specValidInteger (specItoa n) = true ∧ specIntValue (specItoa n) = n ∧
      (∀ c ∈ specItoa n, isSpace c = false) := by
  obtain ⟨hne, hall, hv⟩ := specNatDecimal_spec n.natAbs
  have hne2 : (specNatDecimal n.natAbs).isEmpty = false := by simpa using hne
  have hall2 : (specNatDecimal n.natAbs).all specIsDigit = true := by simpa using hall
  by_cases hneg : n < 0
  · have hs : specStripSign ('-' :: specNatDecimal n.natAbs) = specNatDecimal n.natAbs := rfl
    have hval : specIntValue ('-' :: specNatDecimal n.natAbs) = n := by
      simp only [specIntValue, List.head?_cons, if_true, hs, hv]
      omega
    simp only [specItoa, hneg, if_true, specValidInteger, hs, hne2, hall2, hval,
      Bool.not_false, Bool.and_self, Bool.true_and, Bool.and_eq_true, decide_eq_true_eq]
    refine ⟨⟨hlo, hhi⟩, trivial, ?_⟩
    intro c hc
    rcases List.mem_cons.1 hc with rfl | hc
    · decide
    · exact isSpace_of_digit c (hall c hc)
  · obtain ⟨c, r, hcr⟩ : ∃ c r, specNatDecimal n.natAbs = c :: r := by
      cases hx : specNatDecimal n.natAbs with
      | nil => exact absurd hx hne
      | cons c r => exact ⟨c, r, rfl⟩
    have hcd : specIsDigit c = true := hall c (by rw [hcr]; exact List.mem_cons_self _ _)
    obtain ⟨hs, hh⟩ := specStripSign_of_digit (specNatDecimal n.natAbs) c (by rw [hcr]; rfl) hcd
    have hval : specIntValue (specNatDecimal n.natAbs) = n := by
      simp only [specIntValue, hh, if_false, hs, hv]
      omega
    simp only [specItoa, hneg, if_false, specValidInteger, hs, hne2, hall2, hval,
      Bool.not_false, Bool.and_self, Bool.true_and, Bool.and_eq_true, decide_eq_true_eq]
    exact ⟨⟨hlo, hhi⟩, trivial, fun c hc => isSpace_of_digit c (hall c hc)⟩

theorem dropWhile_space_append (sp r : Str) (hsp : ∀ c ∈ sp, isSpace c = true) :
    (sp ++ r).dropWhile isSpace = r.dropWhile isSpace := by
  induction sp with
  | nil => rfl
  | cons c cs ih =>
    have hc := hsp c (List.mem_cons_self _ _)
    simp only [List.cons_append, List.dropWhile_cons, hc, if_true]
    exact ih (fun x hx => hsp x (List.mem_cons_of_mem _ hx))

theorem dropWhile_of_no_space (r : Str) (hr : ∀ c ∈ r, isSpace c = false) (t : Str) :
    (r ++ t).dropWhile isSpace = if r = [] then t.dropWhile isSpace else r ++ t := by
  cases r with
  | nil => simp
  | cons c cs =>
    have hc := hr c (List.mem_cons_self _ _)
    simp [List.dropWhile_cons, hc]

/-- Trimming removes exactly the surrounding white space of a text that
itself contains none. -/
theorem TrimSpace_pad (sp1 r sp2 : Str) (h1 : ∀ c ∈ sp1, isSpace c = true)
    (h2 : ∀ c ∈ sp2, isSpace c = true) (hr : ∀ c ∈ r, isSpace c = false) :
    TrimSpace (sp1 ++ r ++ sp2) = r := by
  unfold TrimSpace List.rdropWhile
  rw [List.append_assoc, dropWhile_space_append sp1 _ h1, dropWhile_of_no_space r hr]
  have h2r : ∀ c ∈ sp2.reverse, isSpace c = true := fun c hc => h2 c (List.mem_reverse.1 hc)
  have hrr : ∀ c ∈ r.reverse, isSpace c = false := fun c hc => hr c (List.mem_reverse.1 hc)
  by_cases hnil : r = []
  · subst hnil
    have hall : sp2.dropWhile isSpace = [] := by
      rw [List.dropWhile_eq_nil_iff]
      exact h2
    simp [hall]
  · have hne : r.reverse ≠ [] := by simpa using hnil
    have hd := dropWhile_of_no_space _ hrr []
    simp only [List.append_nil, if_neg hne] at hd
    rw [if_neg hnil, List.reverse_append, dropWhile_space_append _ _ h2r, hd]
    simp

/-- On the lines the scanner yields:
site id round trip: for every integer `n` representable as a machine
`int`, an input whose last site_id directive is the key `site_id` followed by a
colon and the decimal rendering of `n`, with arbitrary surrounding white space,
parses successfully (no other line being an invalid site_id directive) with
SiteID = `n`. -/
theorem tokens_site_id_round_trip (pre post : List Str) (k sp1 sp2 : Str) (n : Int)
    (hlo : -(2 : Int) ^ 63 ≤ n) (hhi : n ≤ 2 ^ 63 - 1)
    (hk : ':' ∉ k) (hkey : TrimSpace k = "site_id".toList)
    (hsp1 : ∀ c ∈ sp1, isSpace c = true) (hsp2 : ∀ c ∈ sp2, isSpace c = true)
    (hpre : ∀ l ∈ pre, specBadSiteIdLine l = false)
    (hpost : ∀ l ∈ post, specIsDirective "site_id".toList l = false) :
    (parseTokens (pre ++ ('#' :: (k ++ ':' :: (sp1 ++ specItoa n ++ sp2))) :: post)).2 = none ∧
      (parseTokens (pre ++ ('#' :: (k ++ ':' :: (sp1 ++ specItoa n ++ sp2))) :: post)).1.SiteID =
        n := by
  obtain ⟨hvalid, hvalue, hnosp⟩ := specItoa_spec n hlo hhi
  have hb := head_ne_bang_of_TrimSpace k _ 's' hkey rfl (by decide)
  obtain ⟨hd, hv, _⟩ := directive_line k (sp1 ++ specItoa n ++ sp2) hk hb
  rw [hkey] at hd
  have htrim := TrimSpace_pad sp1 (specItoa n) sp2 hsp1 hsp2 hnosp
  have hok : (parseTokens (pre ++ ('#' :: (k ++ ':' :: (sp1 ++ specItoa n ++ sp2))) :: post)).2 =
      none := by
    rw [parseTokens_ok_iff]
    intro l hl
    rcases List.mem_append.1 hl with hl | hl
    · exact hpre l hl
    · rcases List.mem_cons.1 hl with rfl | hl
      · simp only [specBadSiteIdLine, hd, hv, htrim, hvalid, Bool.not_true, Bool.and_false]
      · simp only [specBadSiteIdLine, hpost l hl, Bool.false_and]
  refine ⟨hok, ?_⟩
  rw [parseTokens_of_ok _ hok]
  have := foldl_lineUpdate_last (fun t => t.SiteID) (specIsDirective "site_id".toList)
    (fun l => specIntValue (TrimSpace (specValueText l))) (fun _ _ => rfl) pre post _ {} hd hpost
  simp only [hv, htrim, hvalue] at this
  exact this

/-- Example on the lines the scanner yields:
`# site_id :  -42 ` after `#site_id: 7` gives SiteID -42,
and -42 is rendered "-42". -/
theorem tokens_site_id_round_trip_example :
    specItoa (-42) = "-42".toList ∧
    (parseTokens (["#site_id: 7".toList] ++
        ('#' :: (" site_id ".toList ++ ':' :: ("  ".toList ++ specItoa (-42) ++ " ".toList))) ::
        ["#title: T".toList])).2 = none ∧
    (parseTokens (["#site_id: 7".toList] ++
        ('#' :: (" site_id ".toList ++ ':' :: ("  ".toList ++ specItoa (-42) ++ " ".toList))) ::
        ["#title: T".toList])).1.SiteID = -42 :=
  ⟨by decide,
    tokens_site_id_round_trip ["#site_id: 7".toList] ["#title: T".toList] " site_id ".toList
      "  ".toList " ".toList (-42) (by decide) (by decide) (by decide) (by decide) (by decide)
      (by decide) (by decide) (by decide)⟩

/-! ## Empty tags -/

theorem Split_nil (sep : Char) : Split [] sep = [[]] := rfl

theorem TrimSpace_of_all_space (v : Str) (h : ∀ c ∈ v, isSpace c = true) : TrimSpace v = [] := by
  have := TrimSpace_pad v [] [] h (by simp) (by simp)
  simpa using this

/-- On the lines the scanner yields:
a tags (or browsers) directive always yields a non-empty list: for a
successfully parsed input whose last tags directive is `line`, Tags has at
least one element, and when the value of `line` is empty or white space only,
Tags is the one-element list containing the empty string; `#tags: a,,b` yields
["a", "", "b"] with the empty tag kept. Likewise for browsers. -/
theorem tokens_tags_list_never_empty (pre post : List Str) (line : Str)
    (hok : (parseTokens (pre ++ line :: post)).2 = none) :
    (specIsDirective "tags".toList line = true →
      (∀ l ∈ post, specIsDirective "tags".toList l = false) →
      1 ≤ (parseTokens (pre ++ line :: post)).1.Tags.length ∧
        ((∀ c ∈ specValueText line, isSpace c = true) →
          (parseTokens (pre ++ line :: post)).1.Tags = [[]])) ∧
    (specIsDirective "browsers".toList line = true →
      (∀ l ∈ post, specIsDirective "browsers".toList l = false) →
      1 ≤ (parseTokens (pre ++ line :: post)).1.Browsers.length ∧
        ((∀ c ∈ specValueText line, isSpace c = true) →
          (parseTokens (pre ++ line :: post)).1.Browsers = [[]])) ∧
    (parseTokens ["#tags: a,,b".toList]).1.Tags = ["a".toList, [], "b".toList] := by
  rw [parseTokens_of_ok _ hok]
  refine ⟨?_, ?_, by decide⟩
  · intro hl hpost
    have h1 := foldl_lineUpdate_last (fun t => t.Tags) (specIsDirective "tags".toList)
      (fun l => (Split (TrimSpace (specValueText l)) ',').map TrimSpace) (fun _ _ => rfl)
      pre post line {} hl hpost
    simp only at h1
    rw [h1]
    refine ⟨by rw [List.length_map, length_Split]; omega, fun hsp => ?_⟩
    rw [TrimSpace_of_all_space _ hsp, Split_nil]
    rfl
  · intro hl hpost
    have h1 := foldl_lineUpdate_last (fun t => t.Browsers) (specIsDirective "browsers".toList)
      (fun l => (Split (TrimSpace (specValueText l)) ',').map TrimSpace) (fun _ _ => rfl)
      pre post line {} hl hpost
    simp only at h1
    rw [h1]
    refine ⟨by rw [List.length_map, length_Split]; omega, fun hsp => ?_⟩
    rw [TrimSpace_of_all_space _ hsp, Split_nil]
    rfl

/-- Example on the lines the scanner yields:
`#tags:` with an empty value, and `#browsers:` with a
blank value, set the list to [""] rather than to the empty list. -/
theorem tokens_tags_list_never_empty_example :
    (parseTokens (["#tags: a".toList] ++ "#tags:".toList :: ["#title: T".toList])).1.Tags = [[]] ∧
    (parseTokens ([] ++ "#browsers:  ".toList :: [])).1.Browsers = [[]] :=
  ⟨((tokens_tags_list_never_empty ["#tags: a".toList] ["#title: T".toList] "#tags:".toList
      (by decide)).1 (by decide) (by decide)).2 (by decide),
    ((tokens_tags_list_never_empty [] [] "#browsers:  ".toList
      (by decide)).2.1 (by decide) (by decide)).2 (by decide)⟩

/-! ## Uploadable-file detector -/

theorem split_at_first (s : Str) (sep : Char) (h : sep ∈ s) :
    s = s.takeWhile (fun c => c != sep) ++ sep :: (s.dropWhile (fun c => c != sep)).tail ∧
      sep ∉ s.takeWhile (fun c => c != sep) := by
  induction s with
  | nil => simp at h
  | cons c cs ih =>
    by_cases hc : c = sep
    · subst hc
      simp [List.takeWhile, List.dropWhile]
    · have hb : (c != sep) = true := by simpa using hc
      have hm : sep ∈ cs := by
        rcases List.mem_cons.1 h with e | hm
        · exact absurd e.symm hc
        · exact hm
      obtain ⟨h1, h2⟩ := ih hm
      constructor
      · simp only [List.takeWhile, List.dropWhile, hb, List.cons_append]
        rw [← h1]
      · simp only [List.takeWhile, hb, List.mem_cons, not_or]
        exact ⟨Ne.symm hc, h2⟩

theorem startsWithUploadCall_iff (text : Str) :
    startsWithUploadCall text = true ↔
      ∃ name arg after, text = name ++ '(' :: (arg ++ ')' :: after) ∧
        name ∈ uploadFunctionNames ∧ ')' ∉ arg ∧ ∃ c ∈ arg, isSpace c = false := by
  unfold startsWithUploadCall
  simp only [List.any_eq_true, Bool.and_eq_true, List.isPrefixOf_iff_prefix,
    Bool.not_eq_true']
  constructor
  · rintro ⟨name, hn, ⟨⟨rest, hrest⟩, hcl⟩, c, hc, hsp⟩
    have hdrop : text.drop (name.length + 1) = rest := by
      rw [← hrest]
      have : (name ++ ['(']).length = name.length + 1 := by simp
      rw [← this, List.drop_left]
    rw [hdrop] at hcl hc
    have hmem : ')' ∈ rest := by simpa using hcl
    obtain ⟨h1, h2⟩ := split_at_first rest ')' hmem
    refine ⟨name, rest.takeWhile (fun c => c != ')'),
      (rest.dropWhile (fun c => c != ')')).tail, ?_, hn, h2, c, hc, hsp⟩
    rw [← h1, ← hrest]
    simp
  · rintro ⟨name, arg, after, rfl, hn, harg, c, hc, hsp⟩
    have hdrop : (name ++ '(' :: (arg ++ ')' :: after)).drop (name.length + 1) =
        arg ++ ')' :: after := by
      have : name ++ '(' :: (arg ++ ')' :: after) = (name ++ ['(']) ++ (arg ++ ')' :: after) := by
        simp
      have hl : (name ++ ['(']).length = name.length + 1 := by simp
      rw [this, ← hl, List.drop_left]
    refine ⟨name, hn, ⟨⟨arg ++ ')' :: after, by simp⟩, ?_⟩, c, ?_, hsp⟩
    · rw [hdrop]
      simp
    · rw [hdrop, takeWhile_ne_append arg after ')' harg]
      exact hc

theorem hasUploadCall_iff (action : Str) :
    hasUploadCall action = true ↔
      ∃ before name arg after, action = before ++ (name ++ '(' :: (arg ++ ')' :: after)) ∧
        name ∈ uploadFunctionNames ∧ ')' ∉ arg ∧ ∃ c ∈ arg, isSpace c = false := by
  unfold hasUploadCall
  simp only [List.any_eq_true, List.mem_tails, startsWithUploadCall_iff]
  constructor
  · rintro ⟨suffix, ⟨before, hb⟩, name, arg, after, rfl, h⟩
    exact ⟨before, name, arg, after, hb.symm, h⟩
  · rintro ⟨before, name, arg, after, rfl, h⟩
    exact ⟨_, ⟨before, rfl⟩, name, arg, after, rfl, h⟩

/-- C14: `HasUploadableFiles` returns true if and only if at least one Action
Step has an action text containing a call to an upload-triggering function
(`file.download` or `file.screenshot`) with an opening delimiter, an argument
holding at least one non-white-space character, and a closing delimiter.
Embedded-test reference steps never count, a call with no argument or with an
empty or white-space-only argument does not count, and empty Steps gives false. -/
theorem C14_HasUploadableFiles_iff (t : RFTest) :
    (HasUploadableFiles t = true ↔
      ∃ action response redirect, Step.RFTestStep action response redirect ∈ t.Steps ∧
        ∃ before name arg after,
          action = before ++ (name ++ '(' :: (arg ++ ')' :: after)) ∧
          name ∈ uploadFunctionNames ∧ ')' ∉ arg ∧ ∃ c ∈ arg, isSpace c = false) ∧
    (t.Steps = [] → HasUploadableFiles t = false) ∧
    ((∀ s ∈ t.Steps, ∃ id r, s = Step.RFEmbeddedTest id r) → HasUploadableFiles t = false) ∧
    HasUploadableFiles { Steps := [.RFTestStep
      "\x7b\x7b file.download(./my/path) \x7d\x7d".toList "nothing".toList false] } = true ∧
    HasUploadableFiles { Steps := [.RFTestStep
      "\x7b\x7b file.screenshot(./my/path) \x7d\x7d".toList "nothing".toList false] } = true ∧
    HasUploadableFiles { Steps := [.RFTestStep
      "\x7b\x7b file.download \x7d\x7d".toList "nothing".toList false] } = false ∧
    HasUploadableFiles { Steps := [.RFTestStep "nothing here".toList "or here".toList false,
      .RFEmbeddedTest "definitely_nothing_here".toList false] } = false ∧
    HasUploadableFiles { Steps := [.RFTestStep
      "\x7b\x7b file.download() \x7d\x7d".toList "nothing".toList false] } = false ∧
    HasUploadableFiles { Steps := [.RFTestStep
      "\x7b\x7b file.download(  ) \x7d\x7d".toList "nothing".toList false] } = false := by
  refine ⟨?_, ?_, ?_, by decide, by decide, by decide, by decide, by decide, by decide⟩
  · unfold HasUploadableFiles
    rw [List.any_eq_true]
    constructor
    · rintro ⟨s, hs, h⟩
      cases s with
      | RFTestStep action response redirect =>
        exact ⟨action, response, redirect, hs, (hasUploadCall_iff action).1 h⟩
      | RFEmbeddedTest id r => cases h
    · rintro ⟨action, response, redirect, hs, h⟩
      exact ⟨_, hs, (hasUploadCall_iff action).2 h⟩
  · intro h
    unfold HasUploadableFiles
    rw [h]
    rfl
  · intro h
    unfold HasUploadableFiles
    rw [List.any_eq_false]
    intro s hs
    obtain ⟨id, r, rfl⟩ := h s hs
    simp [stepHasUploadableFiles]

/-- Witness of C14: a document without steps has no uploadable file, and one
with the action `file.screenshot(a.png)` has. -/
theorem C14_HasUploadableFiles_iff_witness :
    HasUploadableFiles { Steps := [] } = false ∧
    HasUploadableFiles { Steps := [.RFEmbeddedTest "other".toList true,
      .RFTestStep "see file.screenshot(a.png)!".toList [] false] } = true :=
  ⟨(C14_HasUploadableFiles_iff { Steps := [] }).2.1 rfl,
    (C14_HasUploadableFiles_iff { Steps := [.RFEmbeddedTest "other".toList true,
      .RFTestStep "see file.screenshot(a.png)!".toList [] false] }).1.2
      ⟨"see file.screenshot(a.png)!".toList, [], false, by decide, "see ".toList, "file.screenshot".toList, "a.png".toList, "!".toList,
        by decide, by decide, by decide, 'a', by decide, by decide⟩⟩

/-! ## The scanner -/

theorem byteLen_cons (c : Char) (a : Str) : byteLen (c :: a) = c.utf8Size + byteLen a := by
  simp [byteLen]

theorem byteLen_append (a b : Str) : byteLen (a ++ b) = byteLen a + byteLen b := by
  simp [byteLen]

theorem byteLen_replicate (n : Nat) (c : Char) :
    byteLen (List.replicate n c) = n * c.utf8Size := by
  induction n with
  | zero => simp [byteLen]
  | succ n ih =>
    rw [List.replicate_succ, byteLen_cons, ih]
    ring

theorem scanLines_long (long : Str) (post : List Str) (h : MaxScanTokenSize ≤ byteLen long) :
    scanLines (long :: post) = [] := by
  simp only [scanLines, h, if_true]

theorem scanLines_cons_short (l : Str) (rest : List Str) (h : ¬ MaxScanTokenSize ≤ byteLen l) :
    scanLines (l :: rest) = dropCR l :: scanLines rest := by
  simp only [scanLines, h, if_false]

theorem scanLines_append_short (pre rest : List Str)
    (h : ∀ l ∈ pre, byteLen l < MaxScanTokenSize) :
    scanLines (pre ++ rest) = pre.map dropCR ++ scanLines rest := by
  induction pre with
  | nil => rfl
  | cons l ls ih =>
    have hl : ¬ MaxScanTokenSize ≤ byteLen l := not_le.2 (h l (List.mem_cons_self _ _))
    rw [List.cons_append, scanLines_cons_short _ _ hl, List.map_cons, List.cons_append,
      ih (fun x hx => h x (List.mem_cons_of_mem _ hx))]

/-- The silent stop: a line of `MaxScanTokenSize` bytes or more ends the loop,
and `ReadAll` returns what the lines before it gave, the lines after it unread. -/
theorem ReadAll_long_line (pre post : List Str) (long : Str)
    (hpre : ∀ l ∈ pre, byteLen l < MaxScanTokenSize)
    (hlong : MaxScanTokenSize ≤ byteLen long) :
    ReadAll (pre ++ long :: post) = ReadAll pre := by
  unfold ReadAll
  rw [scanLines_append_short pre _ hpre, scanLines_long long post hlong]
  have := scanLines_append_short pre [] hpre
  rw [List.append_nil] at this
  rw [this]
  rfl

theorem mem_scanLines (lines : List Str) (tok : Str) (h : tok ∈ scanLines lines) :
    ∃ raw ∈ lines, tok = dropCR raw := by
  induction lines with
  | nil => cases h
  | cons l ls ih =>
    by_cases hl : MaxScanTokenSize ≤ byteLen l
    · simp only [scanLines, hl, if_true] at h
      cases h
    · rw [scanLines_cons_short _ _ hl] at h
      rcases List.mem_cons.1 h with rfl | h
      · exact ⟨l, List.mem_cons_self _ _, rfl⟩
      · obtain ⟨raw, hr, he⟩ := ih h
        exact ⟨raw, List.mem_cons_of_mem _ hr, he⟩

/-- On an input whose lines are all shorter than the buffer and carry no
trailing carriage return, the scanner yields every line as it is. -/
theorem scanLines_eq_self (lines : List Str)
    (h : ∀ l ∈ lines, byteLen l < MaxScanTokenSize ∧ l.getLast? ≠ some '\r') :
    scanLines lines = lines := by
  induction lines with
  | nil => rfl
  | cons l ls ih =>
    obtain ⟨h1, h2⟩ := h l (List.mem_cons_self _ _)
    have hl : ¬ MaxScanTokenSize ≤ byteLen l := not_le.2 h1
    rw [scanLines_cons_short _ _ hl, ih (fun x hx => h x (List.mem_cons_of_mem _ hx))]
    simp only [dropCR, h2, if_false]

theorem scanLines_insert (pre post : List Str) (line : Str)
    (hshort : byteLen line < MaxScanTokenSize) :
    scanLines (pre ++ line :: post) = scanLines (pre ++ post) ∨
      ∃ a b, scanLines (pre ++ line :: post) = a ++ dropCR line :: b ∧
        scanLines (pre ++ post) = a ++ b := by
  induction pre with
  | nil =>
    right
    have hl : ¬ MaxScanTokenSize ≤ byteLen line := not_le.2 hshort
    exact ⟨[], scanLines post, scanLines_cons_short _ _ hl, rfl⟩
  | cons l ls ih =>
    by_cases hl : MaxScanTokenSize ≤ byteLen l
    · left
      simp only [List.cons_append, scanLines, hl, if_true]
    · rcases ih with h | ⟨a, b, h1, h2⟩
      · left
        rw [List.cons_append, List.cons_append, scanLines_cons_short _ _ hl,
          scanLines_cons_short _ _ hl, h]
      · right
        refine ⟨dropCR l :: a, b, ?_, ?_⟩
        · rw [List.cons_append, scanLines_cons_short _ _ hl, h1, List.cons_append]
        · rw [List.cons_append, scanLines_cons_short _ _ hl, h2, List.cons_append]

theorem dropCR_cases (l : Str) : dropCR l = l ∨ l = dropCR l ++ ['\r'] := by
  unfold dropCR
  by_cases h : l.getLast? = some '\r'
  · right
    simp only [h, if_true]
    exact (List.dropLast_append_getLast? '\r' (by simp [h])).symm
  · left
    simp only [h, if_false]

theorem specIsHashLine_concat (m : Str) (c : Char) (h1 : c ≠ '#') (h2 : c ≠ '!') :
    specIsHashLine (m ++ [c]) = specIsHashLine m := by
  rcases m with _ | ⟨a, _ | ⟨b, r⟩⟩ <;> simp [specIsHashLine, h1, h2]

theorem specIsIdentityLine_concat (m : Str) (c : Char) (h2 : c ≠ '!') :
    specIsIdentityLine (m ++ [c]) = specIsIdentityLine m := by
  rcases m with _ | ⟨a, _ | ⟨b, r⟩⟩ <;> simp [specIsIdentityLine, h2]

theorem contains_colon_concat (m : Str) (c : Char) (h : c ≠ ':') :
    (m ++ [c]).contains ':' = m.contains ':' := by
  have : (':' ∈ m ++ [c]) ↔ ':' ∈ m := by
    simp only [List.mem_append, List.mem_singleton]
    constructor
    · rintro (hm | he)
      · exact hm
      · exact absurd he.symm h
    · exact Or.inl
  cases hc : m.contains ':' <;> simp_all

theorem takeWhile_concat_of_mem (t : Str) (c sep : Char) (h : sep ∈ t) :
    (t ++ [c]).takeWhile (fun x => x != sep) = t.takeWhile (fun x => x != sep) := by
  obtain ⟨h1, h2⟩ := split_at_first t sep h
  have h3 : t ++ [c] = t.takeWhile (fun x => x != sep) ++
      sep :: ((t.dropWhile (fun x => x != sep)).tail ++ [c]) := by
    conv_lhs => rw [h1]
    simp
  rw [h3, takeWhile_ne_append _ _ sep h2]

theorem specKeyText_concat (m : Str) (c : Char) (hh : specIsHashLine m = true)
    (hc : m.contains ':' = true) : specKeyText (m ++ [c]) = specKeyText m := by
  rcases m with _ | ⟨a, t⟩
  · simp [specIsHashLine] at hh
  · simp only [specIsHashLine, List.head?_cons, Bool.and_eq_true, beq_iff_eq,
      Option.some.injEq] at hh
    have ha : a ≠ ':' := by
      rw [hh.1]
      decide
    have hm : ':' ∈ t := by
      have : ':' ∈ a :: t := by simpa using hc
      rcases List.mem_cons.1 this with e | hm
      · exact absurd e.symm ha
      · exact hm
    simp only [specKeyText, List.cons_append, List.tail_cons]
    exact takeWhile_concat_of_mem t c ':' hm

theorem specIsDirective_concat (k m : Str) (c : Char) (h1 : c ≠ '#') (h2 : c ≠ '!')
    (h3 : c ≠ ':') : specIsDirective k (m ++ [c]) = specIsDirective k m := by
  unfold specIsDirective
  rw [specIsHashLine_concat m c h1 h2, contains_colon_concat m c h3]
  by_cases hh : specIsHashLine m = true
  · by_cases hc : m.contains ':' = true
    · rw [specKeyText_concat m c hh hc]
    · simp only [hc, Bool.and_false, Bool.false_and]
  · simp only [hh, Bool.false_and]

theorem specIsDescriptionLine_concat (m : Str) (c : Char) (h1 : c ≠ '#') (h2 : c ≠ '!')
    (h3 : c ≠ ':') : specIsDescriptionLine (m ++ [c]) = specIsDescriptionLine m := by
  unfold specIsDescriptionLine
  rw [specIsHashLine_concat m c h1 h2, contains_colon_concat m c h3]
  by_cases hh : specIsHashLine m = true
  · by_cases hc : m.contains ':' = true
    · rw [specKeyText_concat m c hh hc]
    · simp only [hc, Bool.not_false, Bool.true_or]
  · simp only [hh, Bool.false_and]

/-- Dropping the trailing carriage return does not change the kind of a line. -/
theorem specIsDirective_dropCR (k l : Str) :
    specIsDirective k (dropCR l) = specIsDirective k l := by
  rcases dropCR_cases l with h | h
  · rw [h]
  · conv_rhs => rw [h]
    exact (specIsDirective_concat k _ '\r' (by decide) (by decide) (by decide)).symm

theorem specIsIdentityLine_dropCR (l : Str) :
    specIsIdentityLine (dropCR l) = specIsIdentityLine l := by
  rcases dropCR_cases l with h | h
  · rw [h]
  · conv_rhs => rw [h]
    exact (specIsIdentityLine_concat _ '\r' (by decide)).symm

theorem specIsDescriptionLine_dropCR (l : Str) :
    specIsDescriptionLine (dropCR l) = specIsDescriptionLine l := by
  rcases dropCR_cases l with h | h
  · rw [h]
  · conv_rhs => rw [h]
    exact (specIsDescriptionLine_concat _ '\r' (by decide) (by decide) (by decide)).symm

theorem forall_scanLines (p : Str → Bool) (hp : ∀ l, p (dropCR l) = p l) (lines : List Str)
    (h : ∀ l ∈ lines, p l = false) : ∀ tok ∈ scanLines lines, p tok = false := by
  intro tok htok
  obtain ⟨raw, hr, rfl⟩ := mem_scanLines lines tok htok
  rw [hp]
  exact h raw hr

/-! ## Claims on `ReadAll` that hold for every input -/

/-- C3: whenever `ReadAll` reports a parse error, the document returned with
it is the empty document: identity, title, start URI and description empty,
site id 0, tags, browsers and steps empty. -/
theorem C3_error_returns_empty_document (lines : List Str)
    (herr : (ReadAll lines).2 ≠ none) :
    (ReadAll lines).1 =
      { RFMLID := [], Title := [], StartURI := [], SiteID := 0, Description := [],
        Tags := [], BrowsersMap := [], Browsers := [], Steps := [] } := by
  exact parseTokens_empty_of_error (scanLines lines) herr

/-- Witness of C3: identity, title, tags and description lines before a bad
site_id line leave nothing in the returned document. -/
theorem C3_error_returns_empty_document_witness :
    (ReadAll ["#!my-test-id".toList, "#title: T".toList, "#tags: a, b".toList,
        "# some text".toList, "#site_id: abc".toList]).2 ≠ none ∧
    (ReadAll ["#!my-test-id".toList, "#title: T".toList, "#tags: a, b".toList,
        "# some text".toList, "#site_id: abc".toList]).1 =
      { RFMLID := [], Title := [], StartURI := [], SiteID := 0, Description := [],
        Tags := [], BrowsersMap := [], Browsers := [], Steps := [] } :=
  ⟨by decide, C3_error_returns_empty_document _ (by decide)⟩

/-- C9: in every document returned by `ReadAll`, for every input, no element
of Tags and no element of Browsers begins or ends with a white-space character. -/
theorem C9_tags_browsers_no_outer_space (lines : List Str) :
    ∀ x, x ∈ (ReadAll lines).1.Tags ∨ x ∈ (ReadAll lines).1.Browsers →
      specBeginsWithSpace x = false ∧ specEndsWithSpace x = false := by
  exact tokens_tags_browsers_no_outer_space (scanLines lines)

/-- Witness of C9: the tag ` b ` of `#tags:  a , b ` is stored as "b", which
neither begins nor ends with white space. -/
theorem C9_tags_browsers_no_outer_space_witness :
    ("b".toList ∈ (ReadAll ["#tags:  a , b ".toList, "#browsers: chrome ".toList]).1.Tags ∨
      "b".toList ∈ (ReadAll ["#tags:  a , b ".toList, "#browsers: chrome ".toList]).1.Browsers) ∧
    (specBeginsWithSpace "b".toList = false ∧ specEndsWithSpace "b".toList = false) :=
  ⟨by decide,
    C9_tags_browsers_no_outer_space ["#tags:  a , b ".toList, "#browsers: chrome ".toList]
      "b".toList (by decide)⟩

/-- Counterexample to C10: the one-line input `Click the login button` is an
un-prefixed action line and parses successfully, yet the returned document has
no step. -/
theorem C10_unprefixed_line_no_step :
    specIsIdentityLine "Click the login button".toList = false ∧
    specIsHashLine "Click the login button".toList = false ∧
    (ReadAll ["Click the login button".toList]).2 = none ∧
    ¬ (1 ≤ (ReadAll ["Click the login button".toList]).1.Steps.length) := by
  decide

/-- C10 (amended): for every input, the document returned by `ReadAll` has no
entry in Steps: the reader starts no step and finalizes none, so the number of
entries (zero) is the number of steps it starts, whatever un-prefixed lines the
input contains. -/
theorem C10_steps_count_is_zero (lines : List Str) :
    (ReadAll lines).1.Steps.length = 0 := by
  exact tokens_steps_count_is_zero (scanLines lines)

/-- C13: absent metadata stays at its zero value and is not an error: for
every input (so for every successfully parsed one) a field with no
corresponding line is empty: RFMLID without a `#!` line, Title without a title
directive, StartURI without start_uri, SiteID 0 without site_id, Tags and
Browsers without tags / browsers directives, Description without description
lines; an input without site_id directive parses with no error, and the empty
input parses to the empty document with no error. -/
theorem C13_absent_metadata_zero (lines : List Str) :
    ((∀ l ∈ lines, specIsDirective "site_id".toList l = false) → (ReadAll lines).2 = none) ∧
    ((∀ l ∈ lines, specIsIdentityLine l = false) → (ReadAll lines).1.RFMLID = []) ∧
    ((∀ l ∈ lines, specIsDirective "title".toList l = false) → (ReadAll lines).1.Title = []) ∧
    ((∀ l ∈ lines, specIsDirective "start_uri".toList l = false) →
      (ReadAll lines).1.StartURI = []) ∧
    ((∀ l ∈ lines, specIsDirective "site_id".toList l = false) → (ReadAll lines).1.SiteID = 0) ∧
    ((∀ l ∈ lines, specIsDirective "tags".toList l = false) → (ReadAll lines).1.Tags = []) ∧
    ((∀ l ∈ lines, specIsDirective "browsers".toList l = false) →
      (ReadAll lines).1.Browsers = []) ∧
    ((∀ l ∈ lines, specIsDescriptionLine l = false) → (ReadAll lines).1.Description = []) ∧
    ReadAll [] =
      ({ RFMLID := [], Title := [], StartURI := [], SiteID := 0, Description := [],
         Tags := [], BrowsersMap := [], Browsers := [], Steps := [] }, none) := by
  obtain ⟨t1, t2, t3, t4, t5, t6, t7, t8, _⟩ := tokens_absent_metadata_zero (scanLines lines)
  refine ⟨?_, ?_, ?_, ?_, ?_, ?_, ?_, ?_, rfl⟩
  · exact fun h => t1 (forall_scanLines _ (specIsDirective_dropCR _) lines h)
  · exact fun h => t2 (forall_scanLines _ specIsIdentityLine_dropCR lines h)
  · exact fun h => t3 (forall_scanLines _ (specIsDirective_dropCR _) lines h)
  · exact fun h => t4 (forall_scanLines _ (specIsDirective_dropCR _) lines h)
  · exact fun h => t5 (forall_scanLines _ (specIsDirective_dropCR _) lines h)
  · exact fun h => t6 (forall_scanLines _ (specIsDirective_dropCR _) lines h)
  · exact fun h => t7 (forall_scanLines _ (specIsDirective_dropCR _) lines h)
  · exact fun h => t8 (forall_scanLines _ specIsDescriptionLine_dropCR lines h)

/-- Witness of C13: an input with a title and step lines only parses with no
error and leaves RFMLID, SiteID and Tags at their zero values. -/
theorem C13_absent_metadata_zero_witness :
    (ReadAll ["#title: T".toList, "Click the login button".toList, "".toList]).2 = none ∧
    (ReadAll ["#title: T".toList, "Click the login button".toList, "".toList]).1.RFMLID = [] ∧
    (ReadAll ["#title: T".toList, "Click the login button".toList, "".toList]).1.SiteID = 0 ∧
    (ReadAll ["#title: T".toList, "Click the login button".toList, "".toList]).1.Tags = [] :=
  ⟨(C13_absent_metadata_zero
      ["#title: T".toList, "Click the login button".toList, "".toList]).1 (by decide),
    (C13_absent_metadata_zero
      ["#title: T".toList, "Click the login button".toList, "".toList]).2.1 (by decide),
    (C13_absent_metadata_zero
      ["#title: T".toList, "Click the login button".toList, "".toList]).2.2.2.2.1 (by decide),
    (C13_absent_metadata_zero
      ["#title: T".toList, "Click the login button".toList, "".toList]).2.2.2.2.2.1
      (by decide)⟩

/-! ## Redirect directive -/

/-- Counterexample to C11: a `#redirect:` directive line directly before, or
directly after, an un-prefixed step line parses successfully, yet the returned
document contains no step whose Redirect flag is true. -/
theorem C11_redirect_marks_no_step :
    specIsDirective "redirect".toList "#redirect: true".toList = true ∧
    (ReadAll ["#redirect: true".toList, "Click the login button".toList]).2 = none ∧
    (¬ ∃ s ∈ (ReadAll ["#redirect: true".toList, "Click the login button".toList]).1.Steps,
      stepRedirect s = true) ∧
    (ReadAll ["Click the login button".toList, "#redirect: true".toList]).2 = none ∧
    (¬ ∃ s ∈ (ReadAll ["Click the login button".toList, "#redirect: true".toList]).1.Steps,
      stepRedirect s = true) := by
  decide

/-- C11 (amended): a redirect directive is recognized but marks no step: for
every input containing a redirect directive line shorter than the scanner's
buffer (`MaxScanTokenSize` bytes), the returned document has no step whose
Redirect flag is true, the line causes no error of its own, and the document is
the same as for the input without that line. -/
theorem C11_redirect_directive_no_effect (pre post : List Str) (line : Str)
    (hdir : specIsDirective "redirect".toList line = true)
    (hshort : byteLen line < MaxScanTokenSize) :
    (∀ s ∈ (ReadAll (pre ++ line :: post)).1.Steps, stepRedirect s = false) ∧
      ((ReadAll (pre ++ line :: post)).2 = none ↔ (ReadAll (pre ++ post)).2 = none) ∧
      (ReadAll (pre ++ line :: post)).1 = (ReadAll (pre ++ post)).1 := by
  have hd : specIsDirective "redirect".toList (dropCR line) = true := by
    rw [specIsDirective_dropCR]
    exact hdir
  have hbad : specBadSiteIdLine (dropCR line) = false := by
    have hs : specIsDirective "site_id".toList (dropCR line) = false :=
      specIsDirective_unique _ _ _ hd (by decide)
    simp only [specBadSiteIdLine, hs, Bool.false_and]
  refine ⟨?_, ?_⟩
  · have hst : (ReadAll (pre ++ line :: post)).1.Steps = [] := parseTokens_Steps _
    rw [hst]
    intro s hs
    cases hs
  · unfold ReadAll
    rcases scanLines_insert pre post line hshort with h | ⟨a, b, h1, h2⟩
    · rw [h]
      exact ⟨Iff.rfl, rfl⟩
    · rw [h1, h2]
      exact ⟨parseTokens_ok_insert a b _ hbad,
        parseTokens_insert_noop a b _ (fun t => lineUpdate_redirect t _ hd) hbad⟩

/-- Witness of C11 (amended): `# redirect : true` between a title and a step
line leaves the document of the input without it. -/
theorem C11_redirect_directive_no_effect_witness :
    specIsDirective "redirect".toList "# redirect : true".toList = true ∧
    byteLen "# redirect : true".toList < MaxScanTokenSize ∧
    (ReadAll (["#title: T".toList] ++ "# redirect : true".toList ::
        ["Click the login button".toList])).1 =
      (ReadAll (["#title: T".toList] ++ ["Click the login button".toList])).1 :=
  ⟨by decide, by decide,
    (C11_redirect_directive_no_effect ["#title: T".toList] ["Click the login button".toList]
      "# redirect : true".toList (by decide) (by decide)).2.2⟩

/-! ## The silent stop at a long line

`ReadAll` is documented to parse the whole file, but its loop ends when
`scanner.Scan()` returns false and `scanner.Err()` is never read: at a line of
`MaxScanTokenSize` bytes or more the rest of the file is dropped and the return
is `parsedRFTest, nil`. The theorems of this section evaluate `ReadAll` at such
inputs. -/

theorem long_longText : MaxScanTokenSize ≤ byteLen longText := by
  rw [longText, byteLen_replicate]
  decide

theorem long_longBlank : MaxScanTokenSize ≤ byteLen longBlank := by
  rw [longBlank, byteLen_replicate]
  decide

theorem long_cons (c : Char) (a : Str) (h : MaxScanTokenSize ≤ byteLen a) :
    MaxScanTokenSize ≤ byteLen (c :: a) := by
  rw [byteLen_cons]
  omega

theorem long_append_right (a b : Str) (h : MaxScanTokenSize ≤ byteLen b) :
    MaxScanTokenSize ≤ byteLen (a ++ b) := by
  rw [byteLen_append]
  omega

theorem long_append_left (a b : Str) (h : MaxScanTokenSize ≤ byteLen a) :
    MaxScanTokenSize ≤ byteLen (a ++ b) := by
  rw [byteLen_append]
  omega

theorem longText_head : longText.head? = some 'x' := by
  rw [longText, List.head?_replicate]
  rfl

theorem longText_ne_nil : longText ≠ [] := by
  intro h
  have := longText_head
  rw [h] at this
  cases this

theorem longText_no_space : ∀ c ∈ longText, isSpace c = false := by
  intro c hc
  rw [longText] at hc
  rw [List.eq_of_mem_replicate hc]
  decide

theorem longBlank_all_space : ∀ c ∈ longBlank, isSpace c = true := by
  intro c hc
  rw [longBlank] at hc
  rw [List.eq_of_mem_replicate hc]
  decide

theorem TrimSpace_of_no_space (r : Str) (hr : ∀ c ∈ r, isSpace c = false) :
    TrimSpace r = r := by
  have := TrimSpace_pad [] r [] (by simp) (by simp) hr
  simpa using this

/-- The scanner stops at a first line that is too long: nothing is parsed and
no error is returned. -/
theorem ReadAll_long_first (long : Str) (post : List Str)
    (hlong : MaxScanTokenSize ≤ byteLen long) : ReadAll (long :: post) = ({}, none) := by
  have h := ReadAll_long_line [] post long (by simp) hlong
  rw [List.nil_append] at h
  rw [h]
  rfl

/-- C1, the code at the failing input: a line of 65536 bytes followed by the
bad site_id directive `#site_id: abc`; `ReadAll` returns no error although an
input line is a site_id directive with a bad value. -/
theorem C1_long_line_hides_bad_site_id :
    specBadSiteIdLine "#site_id: abc".toList = true ∧
    (ReadAll [longText, "#site_id: abc".toList]).2 = none := by
  refine ⟨by decide, ?_⟩
  rw [ReadAll_long_first longText _ long_longText]

/-- C2, the code at the failing input: `#title: T`, a line of 65536 bytes,
`#site_id: abc`. The first bad site_id directive is on line 3, yet `ReadAll`
returns the document with Title "T" and no error instead of the parse error of
line 3. -/
theorem C2_long_line_before_bad_site_id :
    (∀ l ∈ ["#title: T".toList, longText], specBadSiteIdLine l = false) ∧
    specBadSiteIdLine "#site_id: abc".toList = true ∧
    ReadAll (["#title: T".toList] ++ longText :: ["#site_id: abc".toList]) =
      ({ Title := "T".toList }, none) := by
  refine ⟨?_, by decide, ?_⟩
  · intro l hl
    simp only [List.mem_cons, List.mem_singleton, List.not_mem_nil, or_false] at hl
    rcases hl with rfl | rfl
    · decide
    · exact (unprefixed_not_directive [] longText (by rw [longText_head]; decide)).2.2.2
  · rw [ReadAll_long_line _ _ _ (by decide) long_longText]
    decide

/-- C4, the code at the failing input: a line of 65536 bytes followed by the
description line `#hello`; the parse succeeds with an empty Description instead
of "hello\n". -/
theorem C4_long_line_drops_description :
    specIsDescriptionLine "#hello".toList = true ∧
    (ReadAll [longText, "#hello".toList]).2 = none ∧
    (ReadAll [longText, "#hello".toList]).1.Description = [] := by
  refine ⟨by decide, ?_, ?_⟩ <;> rw [ReadAll_long_first longText _ long_longText]

/-- C5, the code at the failing input: the single identity line `#!` + `s` with
`s` of 65536 bytes; `ReadAll` returns no error and an empty RFMLID instead of `s`. -/
theorem C5_long_identity_is_dropped :
    longText ≠ [] ∧
    (ReadAll ["#!".toList ++ longText]).2 = none ∧
    (ReadAll ["#!".toList ++ longText]).1.RFMLID = [] := by
  refine ⟨longText_ne_nil, ?_, ?_⟩ <;>
    rw [ReadAll_long_first _ _ (long_append_right _ _ long_longText)]

/-- C6, the code at the failing input: the single line `#title:` + `v` with `v`
of 65536 bytes, which trims to itself; `ReadAll` returns no error and an empty
Title instead of the trimmed `v`. -/
theorem C6_long_title_is_dropped :
    TrimSpace longText ≠ [] ∧
    (ReadAll ['#' :: ("title".toList ++ ':' :: longText)]).2 = none ∧
    (ReadAll ['#' :: ("title".toList ++ ':' :: longText)]).1.Title = [] := by
  refine ⟨?_, ?_, ?_⟩
  · rw [TrimSpace_of_no_space _ longText_no_space]
    exact longText_ne_nil
  · rw [ReadAll_long_first _ _ (long_cons _ _ (long_append_right _ _ (long_cons _ _
      long_longText)))]
  · rw [ReadAll_long_first _ _ (long_cons _ _ (long_append_right _ _ (long_cons _ _
      long_longText)))]

/-- C7, the code at the failing input: the single line `#tags:` + `v` with `v`
made of 65536 spaces and `a ,b`; `ReadAll` returns no error and Tags with no
element instead of the two elements "a" and "b". -/
theorem C7_long_tags_line_is_dropped :
    (ReadAll ["#tags:".toList ++ (longBlank ++ "a ,b".toList)]).2 = none ∧
    (ReadAll ["#tags:".toList ++ (longBlank ++ "a ,b".toList)]).1.Tags = [] := by
  refine ⟨?_, ?_⟩ <;>
    rw [ReadAll_long_first _ _ (long_append_right _ _ (long_append_left _ _ long_longBlank))]

/-- C8, the code at the failing input: `#tags: a`, a line of 65536 bytes,
`#tags: c`; the parse succeeds with Tags = ["a"], the value of the first tags
directive, instead of ["c"], the value of the last. -/
theorem C8_long_line_hides_last_tags :
    (ReadAll (["#tags: a".toList] ++ longText :: ["#tags: c".toList])).2 = none ∧
    (ReadAll (["#tags: a".toList] ++ longText :: ["#tags: c".toList])).1.Tags =
      ["a".toList] := by
  refine ⟨?_, ?_⟩ <;>
    · rw [ReadAll_long_line _ _ _ (by decide) long_longText]
      decide

/-- C12, the code at the failing input: the single line `#site_id:`, 65536
spaces, and `5` (the decimal rendering of 5); `ReadAll` returns no error and
SiteID 0 instead of 5. -/
theorem C12_long_site_id_line_is_dropped :
    (∀ c ∈ longBlank, isSpace c = true) ∧
    specItoa 5 = "5".toList ∧
    (ReadAll ['#' :: ("site_id".toList ++ ':' :: (longBlank ++ specItoa 5 ++ []))]).2 = none ∧
    (ReadAll ['#' :: ("site_id".toList ++ ':' :: (longBlank ++ specItoa 5 ++ []))]).1.SiteID =
      0 := by
  refine ⟨longBlank_all_space, by decide, ?_, ?_⟩
  · rw [ReadAll_long_first _ _ (long_cons _ _ (long_append_right _ _ (long_cons _ _
      (long_append_left _ _ (long_append_left _ _ long_longBlank)))))]
  · rw [ReadAll_long_first _ _ (long_cons _ _ (long_append_right _ _ (long_cons _ _
      (long_append_left _ _ (long_append_left _ _ long_longBlank)))))]

/-- C15, the code at the failing input: `#!` + 65536 bytes followed by
`#title: T`; `ReadAll` returns no error, an empty RFMLID instead of the
remainder of the identity line, and an empty Title although the input without
the identity line gives Title "T". -/
theorem C15_long_identity_line_stops_parse :
    (ReadAll ["#title: T".toList]).1.Title = "T".toList ∧
    (ReadAll ["#!".toList ++ longText, "#title: T".toList]).2 = none ∧
    (ReadAll ["#!".toList ++ longText, "#title: T".toList]).1.RFMLID = [] ∧
    (ReadAll ["#!".toList ++ longText, "#title: T".toList]).1.Title = [] := by
  refine ⟨by decide, ?_, ?_, ?_⟩ <;>
    rw [ReadAll_long_first _ _ (long_append_right _ _ long_longText)]

/-- C16, the code at the failing input: the title directive `#title:` + 65536
bytes followed by `#tags: x`; the parse succeeds with Tags empty, although the
input without the title line gives Tags = ["x"], so the title line changed a
field other than Title. -/
theorem C16_long_title_line_changes_tags :
    specIsDirective "title".toList ('#' :: ("title".toList ++ ':' :: longText)) = true ∧
    (ReadAll ["#tags: x".toList]).1.Tags = ["x".toList] ∧
    (ReadAll ['#' :: ("title".toList ++ ':' :: longText), "#tags: x".toList]).2 = none ∧
    (ReadAll ['#' :: ("title".toList ++ ':' :: longText), "#tags: x".toList]).1.Tags = [] := by
  refine ⟨?_, by decide, ?_, ?_⟩
  · have h := (directive_line "title".toList longText (by decide) (by decide)).1
    have ht : TrimSpace "title".toList = "title".toList := by decide
    rw [ht] at h
    exact h
  · rw [ReadAll_long_first _ _ (long_cons _ _ (long_append_right _ _ (long_cons _ _
      long_longText)))]
  · rw [ReadAll_long_first _ _ (long_cons _ _ (long_append_right _ _ (long_cons _ _
      long_longText)))]

/-- C17, the code at the failing input: an un-prefixed line of 65536 bytes
inserted before `#site_id: 5`; the parse succeeds with SiteID 0, although the
input without the inserted line gives SiteID 5. -/
theorem C17_long_unprefixed_line_changes_document :
    longText.head? ≠ some '#' ∧
    (ReadAll ["#site_id: 5".toList]).2 = none ∧
    (ReadAll ["#site_id: 5".toList]).1.SiteID = 5 ∧
    (ReadAll [longText, "#site_id: 5".toList]).2 = none ∧
    (ReadAll [longText, "#site_id: 5".toList]).1.SiteID = 0 := by
  refine ⟨by rw [longText_head]; decide, by decide, by decide, ?_, ?_⟩ <;>
    rw [ReadAll_long_first longText _ long_longText]

/-- C18, the code at the failing input: `#!first`, a line of 65536 bytes,
`#!second`; the parse succeeds with RFMLID "first" instead of "second", the
remainder of the last identity line. -/
theorem C18_long_line_hides_last_identity :
    specIsIdentityLine "#!second".toList = true ∧
    (ReadAll (["#!first".toList] ++ longText :: ["#!second".toList])).2 = none ∧
    (ReadAll (["#!first".toList] ++ longText :: ["#!second".toList])).1.RFMLID =
      "first".toList := by
  refine ⟨by decide, ?_, ?_⟩ <;>
    · rw [ReadAll_long_line _ _ _ (by decide) long_longText]
      decide

/-- C19, the code at the failing input: the tags directive `#tags:` followed
by 65536 spaces, a white-space-only value; the parse succeeds with Tags the
empty list instead of the one-element list [""]. -/
theorem C19_long_blank_tags_gives_empty_list :
    (∀ c ∈ longBlank, isSpace c = true) ∧
    (ReadAll ["#tags:".toList ++ longBlank]).2 = none ∧
    (ReadAll ["#tags:".toList ++ longBlank]).1.Tags = [] := by
  refine ⟨longBlank_all_space, ?_, ?_⟩ <;>
    rw [ReadAll_long_first _ _ (long_append_right _ _ long_longBlank)]

/-! ## Inputs the scanner yields unchanged -/

/-- When every line is shorter than the scanner's buffer and none ends with a
carriage return, `ReadAll` is the loop run over all the lines, so that the
theorems on the lines the scanner yields apply to the input itself. -/
theorem ReadAll_eq_parseTokens (lines : List Str)
    (h : ∀ l ∈ lines, byteLen l < MaxScanTokenSize ∧ l.getLast? ≠ some '\r') :
    ReadAll lines = parseTokens lines := by
  unfold ReadAll
  rw [scanLines_eq_self lines h]

end Rainforest
